import Mathlib

set_option maxRecDepth 100000

/-
Verification of scripts/release_new_version.py (release pipeline).

Python strings are modelled as lists of characters (`Str`), Python ints as
`Nat` (version numbers are nonnegative and Python ints are unbounded),
exceptions as an `Except PyExc` result.  Regex operations are embedded as
explicit scanners with the exact matching semantics of the patterns used by
the script.  Recursive scanners that skip more than one character per step
take an explicit fuel argument (always called with fuel at least the length
of the scanned list) so that they stay kernel-reducible.
-/

abbrev Str := List Char

/-- Exceptions raised by the script or the Python runtime. -/
inductive PyExc where
  | releaseError : Str → PyExc
  | keyError : Str → PyExc
  | valueError : PyExc
  | calledProcessError : List Str → Nat → Str → Str → PyExc
  deriving DecidableEq, Repr

/-- ASCII decimal digit, the `\d` class of the script's regexes. -/
def isDigitC (c : Char) : Bool := 48 ≤ c.toNat && c.toNat ≤ 57

/-- ASCII whitespace as recognised by Python's `str.strip` and `\s`. -/
def isPyWs (c : Char) : Bool := c.toNat = 32 || (9 ≤ c.toNat && c.toNat ≤ 13)

/-- Python `s.split(sep)` for a single-character separator. -/
def pySplit (sep : Char) : Str → List Str
  | [] => [[]]
  | c :: t =>
    let r := pySplit sep t
    if c = sep then [] :: r else (c :: r.headD []) :: r.tail

/-- Python `sep.join(parts)` for a single-character separator. -/
def joinWith (sep : Char) : List Str → Str
  | [] => []
  | [x] => x
  | x :: y :: t => x ++ sep :: joinWith sep (y :: t)

/-- Python `s.strip()` (ASCII whitespace). -/
def pyStrip (s : Str) : Str :=
  ((s.dropWhile isPyWs).reverse.dropWhile isPyWs).reverse

/-- Digit character of a value below ten. -/
def digitChar : Nat → Char
  | 0 => '0' | 1 => '1' | 2 => '2' | 3 => '3' | 4 => '4'
  | 5 => '5' | 6 => '6' | 7 => '7' | 8 => '8' | _ => '9'

/-- Decimal rendering of a `Nat` (fuelled; `natToStr` supplies enough fuel). -/
def natToStrF : Nat → Nat → Str
  | 0, n => [digitChar n]
  | f + 1, n => if n < 10 then [digitChar n] else natToStrF f (n / 10) ++ [digitChar (n % 10)]

/-- Python `str(n)` for a nonnegative int, as in the script's f-strings. -/
def natToStr (n : Nat) : Str := natToStrF n n

/-- Numeric value of a digit string (most significant first). -/
def digitsVal (s : Str) : Nat := s.foldl (fun a c => 10 * a + (c.toNat - 48)) 0

/-- Python `int(s)` on the digit strings (with optional surrounding
whitespace) that reach it in this script; other shapes raise `ValueError`. -/
def pyInt (s : Str) : Option Nat :=
  let t := pyStrip s
  if t ≠ [] ∧ t.all isDigitC then some (digitsVal t) else none

/-- Consume one-or-more digits (`\d+`, maximal munch) and return the rest. -/
def matchDigitsPlus : Str → Option Str
  | [] => none
  | c :: t => if isDigitC c then some (t.dropWhile isDigitC) else none

/-- Consume a literal dot. -/
def expectDot : Str → Option Str
  | c :: t => if c = '.' then some t else none
  | [] => none

/-- Remainder of the input after matching `\d+\.\d+\.\d+` at the start. -/
def versionCore (s : Str) : Option Str :=
  (matchDigitsPlus s).bind fun r1 =>
    (expectDot r1).bind fun r2 =>
      (matchDigitsPlus r2).bind fun r3 =>
        (expectDot r3).bind fun r4 => matchDigitsPlus r4

/-- Embedding of `validate_version`: Python `re.match(r"^\d+\.\d+\.\d+$", s)`
where `$` also matches just before a single trailing newline. -/
def validate_version (s : Str) : Bool :=
  match versionCore s with
  | some r => r == [] || r == ['\n']
  | none => false

/-- The spec's literal pattern `\d+\.\d+\.\d+` as a full match (no trailing
newline tolerance); stated from the spec's words for comparison with
`validate_version`. -/
def matchesVersionPattern (s : Str) : Bool :=
  match versionCore s with
  | some r => r == []
  | none => false

/-- The pattern `\d+\.\d+\.\d+` matched with Python's `$` semantics: a full
match, alternatively a full match of everything before one final newline. -/
def matchesPatternPyDollar (s : Str) : Bool :=
  matchesVersionPattern s ||
    (match s.reverse with
     | c :: t => c == '\n' && matchesVersionPattern t.reverse
     | [] => false)

/-- Increment kinds accepted by the script's CLI. -/
inductive VersionType where
  | major | minor | patch | skip
  deriving DecidableEq, Repr

/-- Embedding of `increment_versions`. -/
def increment_versions (current_project : Nat) (marketing : Str)
    (version_type : VersionType) : Except PyExc (Nat × Str) :=
  if version_type = VersionType.skip then .ok (current_project, marketing)
  else if validate_version marketing = false then
    .error (.releaseError (("Invalid marketing version format: ").toList ++ marketing ++
      (". Expected X.Y.Z format.").toList))
  else
    let parts := pySplit '.' marketing
    if parts.length ≠ 3 then
      .error (.releaseError (("Invalid marketing version format: ").toList ++ marketing))
    else
      match pyInt (parts.getD 0 []), pyInt (parts.getD 1 []), pyInt (parts.getD 2 []) with
      | some major, some minor, some patch =>
        if version_type = VersionType.major then
          .ok (current_project + 100, natToStr (major + 1) ++ (".0.0").toList)
        else if version_type = VersionType.minor then
          .ok (current_project + 10, natToStr major ++ '.' :: (natToStr (minor + 1) ++ ('.' :: '0' :: [])))
        else
          .ok (current_project + 1, natToStr major ++ '.' :: (natToStr minor ++ '.' :: natToStr (patch + 1)))
      | _, _, _ => .error .valueError

/-
RollbackManager (source lines 139-190).  The filesystem is modelled as a
partial map from paths to file contents; `backup_files` is a Python dict in
insertion order (assigning to an existing key overwrites in place).
-/

abbrev FilePath := Str

abbrev FileSys := FilePath → Option Str

/-- State of `RollbackManager`. -/
structure RollbackManager where
  backup_files : List (FilePath × Str)
  created_files : List FilePath
  temp_dirs : List FilePath

/-- The fresh manager built by `RollbackManager.__init__`. -/
def RollbackManager.init : RollbackManager := ⟨[], [], []⟩

/-- Python dict assignment `d[k] = v`: overwrite in place, else append. -/
def dictSet (m : List (FilePath × Str)) (k : FilePath) (v : Str) :
    List (FilePath × Str) :=
  if m.any fun kv => kv.1 = k then
    m.map fun kv => if kv.1 = k then (k, v) else kv
  else m ++ [(k, v)]

/-- Write a file. -/
def fsWrite (fs : FileSys) (p : FilePath) (c : Str) : FileSys :=
  fun q => if q = p then some c else fs q

/-- Delete a file or directory tree. -/
def fsRemove (fs : FileSys) (p : FilePath) : FileSys :=
  fun q => if q = p then none else fs q

/-- Embedding of `RollbackManager.backup_file`: `if filepath.exists():
self.backup_files[filepath] = filepath.read_text()`. -/
def backup_file (rm : RollbackManager) (fs : FileSys) (p : FilePath) :
    RollbackManager :=
  match fs p with
  | some content => { rm with backup_files := dictSet rm.backup_files p content }
  | none => rm

/-- Embedding of `RollbackManager.track_created_file`. -/
def track_created_file (rm : RollbackManager) (p : FilePath) : RollbackManager :=
  { rm with created_files := rm.created_files ++ [p] }

/-- Embedding of `RollbackManager.track_temp_dir`. -/
def track_temp_dir (rm : RollbackManager) (p : FilePath) : RollbackManager :=
  { rm with temp_dirs := rm.temp_dirs ++ [p] }

/-- Embedding of `RollbackManager.rollback`: restore every backed-up file in
insertion order, then delete tracked created files that still exist, then
remove tracked temp directories that still exist.  (In the source each step
is wrapped in try/except that only prints; pure map updates cannot fail.) -/
def rollback (rm : RollbackManager) (fs : FileSys) : FileSys :=
  let fs1 := rm.backup_files.foldl (fun f kv => fsWrite f kv.1 kv.2) fs
  let fs2 := rm.created_files.foldl
    (fun f p => if (f p).isSome then fsRemove f p else f) fs1
  rm.temp_dirs.foldl (fun f p => if (f p).isSome then fsRemove f p else f) fs2

/-
ConfigStore (source lines 79-136).  `yaml.safe_load` may fail, return YAML
null (empty file), or return a mapping; the script checks only Python
truthiness (`if not config_dict`).  Keys and values are modelled as strings.
-/

/-- Outcome of opening and parsing the config file. -/
inductive YamlOutcome where
  | parseError : Str → YamlOutcome
  | value : Option (List (Str × Str)) → YamlOutcome

/-- The `Config` container. -/
structure Config where
  _config : List (Str × Str)

/-- Association-list lookup (Python dict access). -/
def assocLookup (m : List (Str × Str)) (k : Str) : Option Str :=
  match m with
  | [] => none
  | kv :: t => if kv.1 = k then some kv.2 else assocLookup t k

/-- Embedding of `Config.__getitem__`: `self._config[key]`, raising
`KeyError` on a missing key. -/
def Config.getitem (c : Config) (k : Str) : Except PyExc Str :=
  match assocLookup c._config k with
  | some v => .ok v
  | none => .error (.keyError k)

/-- Embedding of `load_config`.  `file` is `none` when the path does not
exist, otherwise the outcome of `yaml.safe_load`.  The "Configuration file is
empty" `ReleaseError` is raised inside the `try` block, so the
`except Exception` clause re-wraps it with the "Failed to load" message. -/
def load_config (file : Option YamlOutcome) : Except PyExc Config :=
  match file with
  | none => .error (.releaseError (("Configuration file not found").toList))
  | some (.parseError e) =>
    .error (.releaseError (("Failed to parse configuration file: ").toList ++ e))
  | some (.value none) =>
    .error (.releaseError
      (("Failed to load configuration file: Configuration file is empty").toList))
  | some (.value (some d)) =>
    if d.isEmpty then
      .error (.releaseError
        (("Failed to load configuration file: Configuration file is empty").toList))
    else .ok ⟨d⟩

/-
Orchestrator (source `main`, lines 1980-2255, and `create_git_commit_and_tag`,
lines 1660-1696).  The control flow of `main` is embedded with each fallible
step abstracted by an oracle `fails : Step → Option ExcKind` saying whether
the step raises and with which of the three handled exception classes
(`ReleaseError`, `KeyboardInterrupt`, any other `Exception`).
`pushed_to_github` is assigned from `create_git_commit_and_tag`'s return
value, which becomes `True` only after both `git push` commands succeed.
`message` records the version-naming line printed by the post-push handlers.
-/

/-- Exception classes distinguished by `main`'s three except clauses. -/
inductive ExcKind where
  | releaseErr | interrupt | otherExc
  deriving DecidableEq, Repr

/-- The fallible steps of `main`, in program order. -/
inductive Step where
  | loadConfig | validation | checklist | getVersions | incrementVersions
  | updateProject | processChangelog | buildArchive | createDmg
  | unlockKeychain | signUpdate | updateAppcast | verifyRelease
  | gitAdd | gitCommit | gitTag | gitPushMain | gitPushTag
  | dsymsZip | githubRelease | sentryUpload
  deriving DecidableEq, Repr

/-- Embedding of `create_git_commit_and_tag`: add, commit, tag, push the
branch, push the tag; `pushed` becomes true only after both pushes; the
returned tag name is `f"v{marketing_version}"`. -/
def create_git_commit_and_tag (fails : Step → Option ExcKind) (mk : Str) :
    Except ExcKind (Str × Bool) :=
  match fails Step.gitAdd with
  | some k => .error k
  | none =>
  match fails Step.gitCommit with
  | some k => .error k
  | none =>
  match fails Step.gitTag with
  | some k => .error k
  | none =>
  match fails Step.gitPushMain with
  | some k => .error k
  | none =>
  match fails Step.gitPushTag with
  | some k => .error k
  | none => .ok ('v' :: mk, true)

/-- The `try` block of `main`: runs the steps in order and reports the first
raised exception together with the values of `pushed_to_github` and
`new_marketing` at that moment.  `mk` is the marketing version
`increment_versions` computes when it succeeds; `skipSparkle`, `verSkip` and
`sentry` are the `--skip-sparkle` flag, the `skip` increment kind, and
whether both Sentry options were given. -/
def mainTry (fails : Step → Option ExcKind) (mk : Str)
    (skipSparkle verSkip sentry : Bool) :
    Option ExcKind × Bool × Option Str :=
  match fails Step.loadConfig with
  | some k => (some k, false, none)
  | none =>
  match fails Step.validation with
  | some k => (some k, false, none)
  | none =>
  match fails Step.checklist with
  | some k => (some k, false, none)
  | none =>
  match fails Step.getVersions with
  | some k => (some k, false, none)
  | none =>
  match fails Step.incrementVersions with
  | some k => (some k, false, none)
  | none =>
  match (if verSkip then none else fails Step.updateProject) with
  | some k => (some k, false, some mk)
  | none =>
  match fails Step.processChangelog with
  | some k => (some k, false, some mk)
  | none =>
  match fails Step.buildArchive with
  | some k => (some k, false, some mk)
  | none =>
  match fails Step.createDmg with
  | some k => (some k, false, some mk)
  | none =>
  match (if skipSparkle then none else fails Step.unlockKeychain) with
  | some k => (some k, false, some mk)
  | none =>
  match (if skipSparkle then none else fails Step.signUpdate) with
  | some k => (some k, false, some mk)
  | none =>
  match (if skipSparkle then none else fails Step.updateAppcast) with
  | some k => (some k, false, some mk)
  | none =>
  match fails Step.verifyRelease with
  | some k => (some k, false, some mk)
  | none =>
  match create_git_commit_and_tag fails mk with
  | .error k => (.some k, false, some mk)
  | .ok (_, pushed) =>
  match fails Step.dsymsZip with
  | some k => (some k, pushed, some mk)
  | none =>
  match fails Step.githubRelease with
  | some k => (some k, pushed, some mk)
  | none =>
  match (if sentry then fails Step.sentryUpload else none) with
  | some k => (some k, pushed, some mk)
  | none => (none, pushed, some mk)

/-- Outcome of a whole run of `main`. -/
structure RunResult where
  exitCode : Nat
  rolledBack : Bool
  message : Str
  deriving Repr

/-- The version-naming line each post-push handler prints (`version_str` is
`f"v{new_marketing}"` when `new_marketing` is set, else `"version"`). -/
def postPushMessage (k : ExcKind) (vs : Str) : Str :=
  match k with
  | .releaseErr => ("The commit and tag have been pushed to GitHub (").toList ++ vs ++ (").").toList
  | .interrupt => ("The commit and tag ").toList ++ vs ++ (" have been pushed.").toList
  | .otherExc => ("The commit and tag ").toList ++ vs ++ (" have been pushed.").toList

/-- Embedding of `main`: run the `try` block; on an exception, either report
partial completion (when `pushed_to_github` is true) or call
`rollback_manager.rollback()`; either way `sys.exit(1)`. -/
def mainRun (fails : Step → Option ExcKind) (mk : Str)
    (skipSparkle verSkip sentry : Bool) : RunResult :=
  match mainTry fails mk skipSparkle verSkip sentry with
  | (none, _, _) => ⟨0, false, []⟩
  | (some k, pushed, nm) =>
    let version_str : Str := match nm with
      | some m => 'v' :: m
      | none => ("version").toList
    if pushed then ⟨1, false, postPushMessage k version_str⟩
    else ⟨1, true, []⟩

/-- All steps up to and including the second push succeed (respecting the
run's flags), i.e. the commit-tag-push step completes. -/
def pushCompleted (fails : Step → Option ExcKind)
    (skipSparkle verSkip : Bool) : Bool :=
  (fails Step.loadConfig).isNone && (fails Step.validation).isNone &&
  (fails Step.checklist).isNone && (fails Step.getVersions).isNone &&
  (fails Step.incrementVersions).isNone &&
  (verSkip || (fails Step.updateProject).isNone) &&
  (fails Step.processChangelog).isNone && (fails Step.buildArchive).isNone &&
  (fails Step.createDmg).isNone &&
  (skipSparkle || ((fails Step.unlockKeychain).isNone &&
    (fails Step.signUpdate).isNone && (fails Step.updateAppcast).isNone)) &&
  (fails Step.verifyRelease).isNone &&
  (fails Step.gitAdd).isNone && (fails Step.gitCommit).isNone &&
  (fails Step.gitTag).isNone && (fails Step.gitPushMain).isNone &&
  (fails Step.gitPushTag).isNone

/-- Some step strictly after the push step raises. -/
def postPushFailure (fails : Step → Option ExcKind) (sentry : Bool) : Bool :=
  (fails Step.dsymsZip).isSome || (fails Step.githubRelease).isSome ||
    (sentry && (fails Step.sentryUpload).isSome)

/-- Substring occurrence, Python's `in` on strings. -/
def containsSub (pat : Str) : Str → Bool
  | [] => pat.isPrefixOf []
  | c :: t => pat.isPrefixOf (c :: t) || containsSub pat t

deriving instance DecidableEq for Except

/-
FeedPublisher signing (source `sign_update`, lines 1475-1555, and
`run_command`, lines 193-220).  `subprocess.run(check=True)` raises
`CalledProcessError` on a nonzero exit; `run_command` catches it and raises
`ReleaseError(f"Command failed: {' '.join(cmd)}")` instead.  The invocation
outcome of the external signer is a parameter (returncode, stdout, stderr).
-/

/-- Embedding of `subprocess.run(cmd, check=True, capture_output=True)`. -/
def subprocess_run (cmd : List Str) (returncode : Nat) (stdout stderr : Str) :
    Except PyExc (Str × Str) :=
  if returncode = 0 then .ok (stdout, stderr)
  else .error (.calledProcessError cmd returncode stdout stderr)

/-- Embedding of `run_command`: converts `CalledProcessError` into
`ReleaseError("Command failed: ...")`. -/
def run_command (cmd : List Str) (returncode : Nat) (stdout stderr : Str) :
    Except PyExc (Str × Str) :=
  match subprocess_run cmd returncode stdout stderr with
  | .ok r => .ok r
  | .error (.calledProcessError c _ _ _) =>
    .error (.releaseError (("Command failed: ").toList ++ joinWith ' ' c))
  | .error e => .error e

/-- One attempt of the pattern `LIT(<pred>+)<close>` at the start of `s`;
returns the capture and the remaining input on success. -/
def tryAttrAt (litv : Str) (pred : Char → Bool) (close : Char) (s : Str) :
    Option (Str × Str) :=
  if litv.isPrefixOf s then
    let rest := s.drop litv.length
    let cap := rest.takeWhile pred
    if cap.isEmpty then none
    else
      match rest.drop cap.length with
      | c :: r2 => if c = close then some (cap, r2) else none
      | [] => none
  else none

/-- `re.search` for the pattern `LIT(<pred>+)<close>`: try every start
position left to right, return the first capture. -/
def reSearchCapture (litv : Str) (pred : Char → Bool) (close : Char) : Str → Option Str
  | [] =>
    (match tryAttrAt litv pred close [] with
     | some x => some x.1
     | none => none)
  | c :: t =>
    match tryAttrAt litv pred close (c :: t) with
    | some x => some x.1
    | none => reSearchCapture litv pred close t

/-- Embedding of `sign_update`.  The `except subprocess.CalledProcessError`
clause, its Keychain-marker test and the distinguished
`ReleaseError("Sparkle signing failed due to Keychain access issue")` are
translated faithfully; `run_command` however never lets a
`CalledProcessError` escape. -/
def sign_update (dmg_path : Str) (toolExists : Bool) (returncode : Nat)
    (stdout stderr : Str) : Except PyExc (Str × Str) :=
  if toolExists = false then
    .error (.releaseError
      (("Sparkle sign_update tool not found at scripts/bin/sparkle/sign_update").toList))
  else
    match run_command [("scripts/bin/sparkle/sign_update").toList, dmg_path]
        returncode stdout stderr with
    | .error (.calledProcessError c rc out err) =>
      if containsSub (("Unable to access required key in the Keychain").toList) out then
        .error (.releaseError
          (("Sparkle signing failed due to Keychain access issue").toList))
      else .error (.calledProcessError c rc out err)
    | .error e => .error e
    | .ok result =>
      let output := pyStrip result.1
      match reSearchCapture (("sparkle:edSignature=\"").toList) (fun c => c != '"') '"' output,
            reSearchCapture (("length=\"").toList) isDigitC '"' output with
      | some sig, some len => .ok (sig, len)
      | _, _ =>
        .error (.releaseError (("Could not parse sign_update output: ").toList ++ output))

/-
VersionEngine (source `get_current_versions` lines 546-585 and
`update_project_versions` lines 663-732).  Both scan for the opener pattern
`buildSettings\s*=\s*\{`; the reader's regex additionally captures
`([^}]+)\};` (so it cannot see past a nested closing brace), while the writer
pairs the opening brace by `find_matching_brace` depth counting.  The shared
left-to-right non-overlapping scan (`re.finditer` / `re.sub`) is factored
into `scanGenF`: at each position try a match; on success emit its output and
continue after the match, otherwise emit `miss` of the current character and
advance one position.
-/

/-- Generic fuelled left-to-right scanner (fuel ≥ input length suffices). -/
def scanGenF {A : Type} (step : Nat → Str → Option (Nat × List A)) (miss : Char → List A) :
    Nat → Nat → Str → List A
  | 0, _, _ => []
  | _ + 1, _, [] => []
  | f + 1, base, c :: t =>
    match step base (c :: t) with
    | some x => x.2 ++ scanGenF step miss f (base + x.1) (List.drop (x.1 - 1) t)
    | none => miss c ++ scanGenF step miss f (base + 1) t

/-- Match of `buildSettings\s*=\s*\{` at the start of `s`; returns the number
of characters consumed (the `\{` is the last one). -/
def tryOpenerAt (s : Str) : Option Nat :=
  if ("buildSettings").toList.isPrefixOf s then
    let r1 := s.drop 13
    let w1 := r1.takeWhile isPyWs
    match r1.drop w1.length with
    | c :: r3 =>
      if c = '=' then
        let w2 := r3.takeWhile isPyWs
        match r3.drop w2.length with
        | c2 :: _ =>
          if c2 = '\x7b' then some (13 + w1.length + 1 + w2.length + 1) else none
        | [] => none
      else none
    | [] => none
  else none

/-- `re.finditer(r"buildSettings\s*=\s*\{", content)`: the position of the
opening brace of each match (`match.end() - 1`), in order. -/
def scanOpeners (content : Str) : List Nat :=
  scanGenF (fun base s => (tryOpenerAt s).map fun k => (k, [base + k - 1]))
    (fun _ => []) content.length 0 content

/-- Embedding of the inner loop of `find_matching_brace`. -/
def fmbGo : Str → Nat → Nat → Option Nat
  | _, 0, pos => some (pos - 1)
  | [], _ + 1, _ => none
  | c :: rest, count + 1, pos =>
    fmbGo rest
      (if c = '\x7b' then count + 2 else if c = '\x7d' then count else count + 1)
      (pos + 1)

/-- Embedding of `find_matching_brace(text, start_pos)`: `none` is the
source's `-1` (unbalanced). -/
def find_matching_brace (text : Str) (start : Nat) : Option Nat :=
  fmbGo (text.drop (start + 1)) 1 (start + 1)

/-- Match of `LIT(<pred>+)<close>` at the start of `s`: number of characters
consumed and the capture. -/
def tryAttr (litv : Str) (pred : Char → Bool) (close : Char) (s : Str) :
    Option (Nat × Str) :=
  if litv.isPrefixOf s then
    let rest := s.drop litv.length
    let cap := rest.takeWhile pred
    if cap.isEmpty then none
    else
      match rest.drop cap.length with
      | c :: _ => if c = close then some (litv.length + cap.length + 1, cap) else none
      | [] => none
  else none

/-- `re.sub` for the pattern `LIT<pred>+<close>`: replace every
non-overlapping match by `repl`. -/
def substAll (litv : Str) (pred : Char → Bool) (close : Char) (repl : Str) (s : Str) : Str :=
  scanGenF (fun _ t => (tryAttr litv pred close t).map fun x => (x.1, repl))
    (fun c => [c]) s.length 0 s

/-- `re.search` for `LIT(<pred>+)<close>`: first capture, scanning left to
right. -/
def reSearchCap (litv : Str) (pred : Char → Bool) (close : Char) : Str → Option Str
  | [] => none
  | c :: t =>
    match tryAttr litv pred close (c :: t) with
    | some x => some x.2
    | none => reSearchCap litv pred close t

/-- Match of the reader's block pattern `buildSettings\s*=\s*\{([^}]+)\};` at
the start of `s`: characters consumed and the captured block text. -/
def tryBlockAt (s : Str) : Option (Nat × Str) :=
  match tryOpenerAt s with
  | some k =>
    let rest := s.drop k
    let cap := rest.takeWhile fun c => c != '\x7d'
    if cap.isEmpty then none
    else
      match rest.drop cap.length with
      | c :: r2 =>
        if c = '\x7d' then
          match r2 with
          | c2 :: _ => if c2 = ';' then some (k + cap.length + 2, cap) else none
          | [] => none
        else none
      | [] => none
  | none => none

/-- `re.finditer` over the reader's block pattern: captured blocks in order. -/
def scanBlocks (content : Str) : List Str :=
  scanGenF (fun _ s => (tryBlockAt s).map fun x => (x.1, [x.2])) (fun _ => [])
    content.length 0 content

/-- The exact bundle-identifier assignment
`f"PRODUCT_BUNDLE_IDENTIFIER = {bundle_identifier};"`. -/
def bidAssign (bid : Str) : Str :=
  ("PRODUCT_BUNDLE_IDENTIFIER = ").toList ++ bid ++ [';']

/-- Literal part of the pattern `CURRENT_PROJECT_VERSION = (\d+);`. -/
def cpvLit : Str := ("CURRENT_PROJECT_VERSION = ").toList

/-- Literal part of the pattern `MARKETING_VERSION = ([\d.]+);`. -/
def mvLit : Str := ("MARKETING_VERSION = ").toList

/-- The class `[\d.]`. -/
def isDigitOrDot (c : Char) : Bool := isDigitC c || c = '.'

/-- Body of the `for` loop of `get_current_versions`: update
`current_version` / `marketing_version` from each block that contains the
bundle-identifier assignment; stop once both are set. -/
def gcvLoop (bid : Str) : List Str → Option Nat → Option Str → Option Nat × Option Str
  | [], c, m => (c, m)
  | b :: bs, c, m =>
    if containsSub (bidAssign bid) b then
      let c2 := match (reSearchCap cpvLit isDigitC ';' b).map digitsVal with
        | some n => some n
        | none => c
      let m2 := match reSearchCap mvLit isDigitOrDot ';' b with
        | some v => some v
        | none => m
      if c2.isSome && m2.isSome then (c2, m2) else gcvLoop bid bs c2 m2
    else gcvLoop bid bs c m

/-- Embedding of `get_current_versions` (pure part: the file's text is the
first argument). -/
def get_current_versions (content : Str) (bid : Str) : Except PyExc (Nat × Str) :=
  match gcvLoop bid (scanBlocks content) none none with
  | (some n, some v) => .ok (n, v)
  | _ => .error (.releaseError
      (("Could not find version numbers for bundle identifier ").toList ++ bid))

/-- Replacement text `f"CURRENT_PROJECT_VERSION = {new_project};"`. -/
def cpvRepl (n : Nat) : Str := cpvLit ++ natToStr n ++ [';']

/-- Replacement text `f"MARKETING_VERSION = {new_marketing};"`. -/
def mvRepl (v : Str) : Str := mvLit ++ v ++ [';']

/-- Python slice index: negative counts from the end, clamped into range. -/
def pyIdx (len : Nat) (i : Int) : Nat :=
  if i < 0 then ((len : Int) + i).toNat else min i.toNat len

/-- Python `s[:i]`. -/
def pySliceTo (s : Str) (i : Int) : Str := s.take (pyIdx s.length i)

/-- Python `s[i:]`. -/
def pySliceFrom (s : Str) (i : Int) : Str := s.drop (pyIdx s.length i)

/-- Body of the `for` loop of `update_project_versions`: for each opener
brace position (found on the original content), pair the brace; on `-1`
(`none`) skip the block (`continue`); otherwise, if the block contains the
bundle-identifier assignment, rewrite its two fields and splice the result
into the accumulated text at offset-adjusted positions. -/
def upvLoop (content : Str) (bid : Str) (np : Nat) (nm : Str) :
    List Nat → Str → Int → Str
  | [], m, _ => m
  | p :: ps, m, off =>
    match find_matching_brace content p with
    | none => upvLoop content bid np nm ps m off
    | some e =>
      let block := (content.drop (p + 1)).take (e - (p + 1))
      if containsSub (bidAssign bid) block then
        let ub1 := substAll cpvLit isDigitC ';' (cpvRepl np) block
        let ub := substAll mvLit isDigitOrDot ';' (mvRepl nm) ub1
        let m2 := pySliceTo m ((p : Int) + 1 + off) ++ ub ++
          pySliceFrom m ((e : Int) + off)
        upvLoop content bid np nm ps m2 (off + ((ub.length : Int) - (block.length : Int)))
      else upvLoop content bid np nm ps m off

/-- Embedding of `update_project_versions` (pure part): returns the text
written back to the project file.  The source has no raise between reading
and writing the file: every block whose braces are unbalanced is skipped by
`continue`, and the (possibly unchanged) text is always written. -/
def update_project_versions (content : Str) (bid : Str) (np : Nat) (nm : Str) : Str :=
  upvLoop content bid np nm (scanOpeners content) content 0

/-- Neither brace. -/
def notBrace (c : Char) : Bool := c != '\x7b' && c != '\x7d'

/-- The canonical opener text as it appears in a pbxproj descriptor. -/
def opener : Str := ("buildSettings = \x7b").toList

/-- Closing of a flat buildSettings block. -/
def blkClose : Str := '\x7d' :: ';' :: []

/-- A flat buildSettings block with the given body. -/
def blkRaw (body : Str) : Str := opener ++ (body ++ blkClose)

/-- No match of the opener pattern starts inside `J` when `R` follows it. -/
abbrev noOpenerIn (J R : Str) : Prop :=
  ∀ i, i < J.length → tryOpenerAt (List.drop i (J ++ R)) = none

/-- No match of the reader's block pattern starts inside `J` followed by `R`. -/
abbrev noBlockIn (J R : Str) : Prop :=
  ∀ i, i < J.length → tryBlockAt (List.drop i (J ++ R)) = none

/-- No match of `LIT<pred>+<close>` starts inside `J` followed by `R`. -/
abbrev noAttrIn (litv : Str) (pred : Char → Bool) (close : Char) (J R : Str) : Prop :=
  ∀ i, i < J.length → tryAttr litv pred close (List.drop i (J ++ R)) = none

/-- Tail of a structured block after the bundle-identifier assignment. -/
def tailBid (u3 bid u4 : Str) : Str := u3 ++ (bidAssign bid ++ u4)

/-- Tail of a structured block after the build-number field. -/
def tailCpv (u2 vOld u3 bid u4 : Str) : Str :=
  u2 ++ (mvLit ++ (vOld ++ ';' :: tailBid u3 bid u4))

/-- A structured flat block body: junk, build-number field, junk,
marketing-version field, junk, bundle-identifier assignment, junk. -/
def tBody (u1 dOld u2 vOld u3 bid u4 : Str) : Str :=
  u1 ++ (cpvLit ++ (dOld ++ ';' :: tailCpv u2 vOld u3 bid u4))

/-- The same block body after both fields are rewritten to the new values. -/
def tBodyNew (u1 u2 u3 u4 bid : Str) (np : Nat) (nm : Str) : Str :=
  u1 ++ (cpvRepl np ++ (u2 ++ (mvRepl nm ++ tailBid u3 bid u4)))

/-
ChangelogEngine (source `process_changelog`, lines 755-792).  The regex
`## Unreleased\n(.*?)(?=\n## |$)` (DOTALL) matches at the first occurrence of
the literal `## Unreleased\n`; the lazy capture ends at the first position
followed by `\n## ` or at `$` (end of text, or just before a final newline).
Afterwards the source replaces the first occurrence of `## Unreleased` by the
new version header, splits into lines, and inserts a fresh `## Unreleased`
line plus a blank line above the first line whose `strip()` equals the new
header.
-/

/-- The lookahead `(?=\n## |$)` at the given suffix of the text. -/
def stopHere (r : Str) : Bool :=
  (("\n## ").toList).isPrefixOf r || r == ['\n']

/-- The lazy capture `(.*?)`: everything up to the first stop position. -/
def capLoop : Str → Str
  | [] => []
  | c :: t => if stopHere (c :: t) then [] else c :: capLoop t

/-- `re.search(r"## Unreleased\n(.*?)(?=\n## |$)", content, re.DOTALL)`:
the captured group of the leftmost match. -/
def findUnrel : Str → Option Str
  | [] => none
  | c :: t =>
    if (("## Unreleased\n").toList).isPrefixOf (c :: t)
    then some (capLoop ((c :: t).drop 14))
    else findUnrel t

/-- Python `content.replace(old, new, 1)`. -/
def replaceFirst (pat repl : Str) : Str → Str
  | [] => if pat.isPrefixOf [] then repl else []
  | c :: t =>
    if pat.isPrefixOf (c :: t) then repl ++ (c :: t).drop pat.length
    else c :: replaceFirst pat repl t

/-- The `for i, line in enumerate(lines)` loop: insert `## Unreleased` and a
blank line above the first line whose `strip()` is the new header. -/
def insertUnrel (h : Str) : List Str → List Str
  | [] => []
  | l :: ls =>
    if pyStrip l = h then (("## Unreleased").toList) :: [] :: l :: ls
    else l :: insertUnrel h ls

/-- Embedding of `process_changelog` (pure part: the changelog text is the
last argument; returns the extracted release notes and the rewritten text). -/
def process_changelog (new_project : Nat) (new_marketing : Str) (content : Str) :
    Except PyExc (Str × Str) :=
  match findUnrel content with
  | none => .error (.releaseError
      (("Could not find '## Unreleased' section in CHANGELOG.md").toList))
  | some cap =>
    let changelog_items := pyStrip cap
    let new_header := ("## Version ").toList ++ new_marketing ++ (" (").toList ++
      natToStr new_project ++ [')']
    let updated := replaceFirst (("## Unreleased").toList) new_header content
    let lines := pySplit '\n' updated
    .ok (changelog_items, joinWith '\n' (insertUnrel new_header lines))

/-
Theorems.
-/

lemma dropWhile_append_all {p : Char → Bool} {a : Str} (r : Str) (h : a.all p = true) :
    (a ++ r).dropWhile p = r.dropWhile p := by
  induction a with
  | nil => rfl
  | cons c t ih =>
    simp only [List.all_cons, Bool.and_eq_true] at h
    simp [List.dropWhile_cons, h.1, ih h.2]

lemma digit_not_ws {c : Char} (h : isDigitC c = true) : isPyWs c = false := by
  simp only [isDigitC, Bool.and_eq_true, decide_eq_true_eq] at h
  simp only [isPyWs, Bool.or_eq_false_iff, Bool.and_eq_false_iff, decide_eq_false_iff_not]
  omega

lemma digit_ne_of {c x : Char} (h : isDigitC c = true) (hx : isDigitC x = false) : c ≠ x := by
  intro e
  rw [e, hx] at h
  exact Bool.noConfusion h

lemma all_digit_mem {a : Str} (h : a.all isDigitC = true) {c : Char} (hc : c ∈ a) :
    isDigitC c = true :=
  List.all_eq_true.mp h c hc

lemma matchDigitsPlus_append {d : Str} (r : Str) (hd : d ≠ []) (ha : d.all isDigitC = true) :
    matchDigitsPlus (d ++ r) = some (r.dropWhile isDigitC) := by
  cases d with
  | nil => exact absurd rfl hd
  | cons c t =>
    simp only [List.all_cons, Bool.and_eq_true] at ha
    simp [matchDigitsPlus, ha.1, dropWhile_append_all r ha.2]

lemma dropWhile_dot (r : Str) : List.dropWhile isDigitC ('.' :: r) = '.' :: r := by
  have hdot : isDigitC '.' = false := by decide
  simp [List.dropWhile_cons, hdot]

lemma option_some_bind {α β : Type} (a : α) (f : α → Option β) : (some a).bind f = f a := rfl

lemma expectDot_dot (t : Str) : expectDot ('.' :: t) = some t := by
  simp [expectDot]

lemma versionCore_append {d1 d2 d3 : Str} (r : Str)
    (h1 : d1 ≠ []) (a1 : d1.all isDigitC = true)
    (h2 : d2 ≠ []) (a2 : d2.all isDigitC = true)
    (h3 : d3 ≠ []) (a3 : d3.all isDigitC = true) :
    versionCore (d1 ++ '.' :: (d2 ++ '.' :: (d3 ++ r))) = some (r.dropWhile isDigitC) := by
  unfold versionCore
  rw [matchDigitsPlus_append _ h1 a1, dropWhile_dot]
  rw [option_some_bind, expectDot_dot, option_some_bind]
  rw [matchDigitsPlus_append _ h2 a2, dropWhile_dot]
  rw [option_some_bind, expectDot_dot, option_some_bind]
  rw [matchDigitsPlus_append _ h3 a3]

lemma matchDigitsPlus_some {s r : Str} (h : matchDigitsPlus s = some r) :
    ∃ d, s = d ++ r ∧ d ≠ [] ∧ d.all isDigitC = true := by
  cases s with
  | nil => simp [matchDigitsPlus] at h
  | cons c t =>
    by_cases hc : isDigitC c = true
    · simp only [matchDigitsPlus, hc, if_true, Option.some.injEq] at h
      refine ⟨c :: t.takeWhile isDigitC, ?_, by simp, ?_⟩
      · rw [← h]
        simp [List.takeWhile_append_dropWhile]
      · simp only [List.all_cons, Bool.and_eq_true, hc, true_and]
        exact List.all_eq_true.mpr fun x hx => List.mem_takeWhile_imp hx
    · simp [matchDigitsPlus, hc] at h

lemma expectDot_some {s r : Str} (h : expectDot s = some r) : s = '.' :: r := by
  cases s with
  | nil => simp [expectDot] at h
  | cons c t =>
    by_cases hc : c = '.'
    · subst hc
      rw [expectDot_dot] at h
      simp only [Option.some.injEq] at h
      rw [h]
    · simp [expectDot, hc] at h

lemma versionCore_some {s r : Str} (h : versionCore s = some r) :
    ∃ d1 d2 d3, s = d1 ++ '.' :: (d2 ++ '.' :: (d3 ++ r)) ∧
      d1 ≠ [] ∧ d1.all isDigitC = true ∧ d2 ≠ [] ∧ d2.all isDigitC = true ∧
      d3 ≠ [] ∧ d3.all isDigitC = true := by
  unfold versionCore at h
  rw [Option.bind_eq_some] at h
  obtain ⟨r1, h1, h⟩ := h
  rw [Option.bind_eq_some] at h
  obtain ⟨r2, h2, h⟩ := h
  rw [Option.bind_eq_some] at h
  obtain ⟨r3, h3, h⟩ := h
  rw [Option.bind_eq_some] at h
  obtain ⟨r4, h4, h⟩ := h
  obtain ⟨d1, e1, n1, g1⟩ := matchDigitsPlus_some h1
  obtain ⟨d2, e2, n2, g2⟩ := matchDigitsPlus_some h3
  obtain ⟨d3, e3, n3, g3⟩ := matchDigitsPlus_some h
  refine ⟨d1, d2, d3, ?_, n1, g1, n2, g2, n3, g3⟩
  rw [e1, expectDot_some h2, e2, expectDot_some h4, e3]

lemma validate_imp_pyDollar {s : Str} (h : validate_version s = true) :
    matchesPatternPyDollar s = true := by
  unfold validate_version at h
  rcases hv : versionCore s with _ | r
  · rw [hv] at h; simp at h
  rw [hv] at h
  simp only [Bool.or_eq_true, beq_iff_eq] at h
  rcases h with h | h
  · subst h
    have : matchesVersionPattern s = true := by
      unfold matchesVersionPattern
      rw [hv]
      rfl
    simp [matchesPatternPyDollar, this]
  · subst h
    obtain ⟨d1, d2, d3, e, n1, g1, n2, g2, n3, g3⟩ := versionCore_some hv
    have eu : s = (d1 ++ '.' :: (d2 ++ '.' :: d3)) ++ ['\n'] := by
      rw [e]; simp
    have hu : matchesVersionPattern (d1 ++ '.' :: (d2 ++ '.' :: d3)) = true := by
      unfold matchesVersionPattern
      have := versionCore_append (r := ([] : Str)) n1 g1 n2 g2 n3 g3
      simp only [List.append_nil] at this
      rw [this]
      rfl
    rw [eu]
    unfold matchesPatternPyDollar
    simp only [List.reverse_append, List.reverse_cons, List.reverse_nil, List.nil_append,
      List.cons_append, List.reverse_reverse]
    simp [hu]

lemma pySplit_sepFree {sep : Char} {a : Str} (h : ∀ c ∈ a, c ≠ sep) :
    pySplit sep a = [a] := by
  induction a with
  | nil => rfl
  | cons c t ih =>
    have hc : c ≠ sep := h c (by simp)
    have ht : pySplit sep t = [t] := ih fun x hx => h x (by simp [hx])
    simp [pySplit, hc, ht]

lemma pySplit_append {sep : Char} {a : Str} (r : Str) (h : ∀ c ∈ a, c ≠ sep) :
    pySplit sep (a ++ sep :: r) = a :: pySplit sep r := by
  induction a with
  | nil => simp [pySplit]
  | cons c t ih =>
    have hc : c ≠ sep := h c (by simp)
    have ht := ih fun x hx => h x (by simp [hx])
    simp [pySplit, hc, ht]

lemma dropWhile_ws_of_digits {d : Str} (hd : d ≠ []) (ha : d.all isDigitC = true) :
    d.dropWhile isPyWs = d := by
  cases d with
  | nil => rfl
  | cons c t =>
    simp only [List.all_cons, Bool.and_eq_true] at ha
    simp [List.dropWhile_cons, digit_not_ws ha.1]

lemma pyStrip_digits {d : Str} (hd : d ≠ []) (ha : d.all isDigitC = true) :
    pyStrip d = d := by
  unfold pyStrip
  rw [dropWhile_ws_of_digits hd ha]
  rw [dropWhile_ws_of_digits (by simpa using hd) (by simpa using ha)]
  simp

lemma pyInt_digits {d : Str} (hd : d ≠ []) (ha : d.all isDigitC = true) :
    pyInt d = some (digitsVal d) := by
  unfold pyInt
  rw [pyStrip_digits hd ha]
  simp [hd, ha]

/-- C4: `increment_versions` is deterministic (it is a function) and, on any
marketing version matching `\d+\.\d+\.\d+` with numeric parts
(major, minor, patch) = (digitsVal d1, digitsVal d2, digitsVal d3) and any
build number n: `skip` returns `(n, version)` unchanged; `patch` returns
`(n+1, major.minor.(patch+1))`; `minor` returns `(n+10, major.(minor+1).0)`;
`major` returns `(n+100, (major+1).0.0)`. -/
theorem c4_increment_versions_correct (n : Nat) (d1 d2 d3 : Str)
    (h1 : d1 ≠ []) (a1 : d1.all isDigitC = true)
    (h2 : d2 ≠ []) (a2 : d2.all isDigitC = true)
    (h3 : d3 ≠ []) (a3 : d3.all isDigitC = true) :
    increment_versions n (d1 ++ '.' :: (d2 ++ '.' :: d3)) VersionType.skip
        = .ok (n, d1 ++ '.' :: (d2 ++ '.' :: d3)) ∧
    increment_versions n (d1 ++ '.' :: (d2 ++ '.' :: d3)) VersionType.patch
        = .ok (n + 1, natToStr (digitsVal d1) ++ '.' ::
            (natToStr (digitsVal d2) ++ '.' :: natToStr (digitsVal d3 + 1))) ∧
    increment_versions n (d1 ++ '.' :: (d2 ++ '.' :: d3)) VersionType.minor
        = .ok (n + 10, natToStr (digitsVal d1) ++ '.' ::
            (natToStr (digitsVal d2 + 1) ++ ('.' :: '0' :: []))) ∧
    increment_versions n (d1 ++ '.' :: (d2 ++ '.' :: d3)) VersionType.major
        = .ok (n + 100, natToStr (digitsVal d1 + 1) ++ (".0.0").toList) := by
  have hv : validate_version (d1 ++ '.' :: (d2 ++ '.' :: d3)) = true := by
    have h := versionCore_append (r := ([] : Str)) h1 a1 h2 a2 h3 a3
    simp only [List.append_nil] at h
    unfold validate_version
    rw [h]
    rfl
  have hsp : pySplit '.' (d1 ++ '.' :: (d2 ++ '.' :: d3)) = [d1, d2, d3] := by
    rw [pySplit_append _ fun c hc => digit_ne_of (all_digit_mem a1 hc) (by decide)]
    rw [pySplit_append _ fun c hc => digit_ne_of (all_digit_mem a2 hc) (by decide)]
    rw [pySplit_sepFree fun c hc => digit_ne_of (all_digit_mem a3 hc) (by decide)]
  refine ⟨by simp [increment_versions], ?_, ?_, ?_⟩ <;>
    simp [increment_versions, hv, hsp, pyInt_digits h1 a1, pyInt_digits h2 a2,
      pyInt_digits h3 a3]

/-- C4 witness: the spec's end-to-end scenario, `build=41`, `version="2.3.0"`:
kind `minor` yields `(51, "2.4.0")` and kind `skip` yields `(41, "2.3.0")`. -/
theorem c4_increment_versions_correct_witness :
    increment_versions 41 (("2.3.0").toList) VersionType.minor
        = .ok (51, ("2.4.0").toList) ∧
    increment_versions 41 (("2.3.0").toList) VersionType.skip
        = .ok (41, ("2.3.0").toList) := by
  have h := c4_increment_versions_correct 41 (("2").toList) (("3").toList) (("0").toList)
    (by decide) (by decide) (by decide) (by decide) (by decide) (by decide)
  exact ⟨h.2.2.1, h.1⟩

/-- C9 counterexample: the string composed of `1.2.3` and a trailing newline
does not match the claim's pattern `\d+\.\d+\.\d+`, yet `increment_versions`
with the non-skip kind `patch` succeeds on it (returning `(8, "1.2.4")`)
instead of failing with the InvalidFormat error, because Python's `$` in
`validate_version` also matches just before a trailing newline. -/
theorem c9_counterexample :
    matchesVersionPattern (("1.2.3\n").toList) = false ∧
    increment_versions 7 (("1.2.3\n").toList) VersionType.patch
      = .ok (8, ("1.2.4").toList) :=
  ⟨rfl, rfl⟩

/-- C9 amended: for every marketing version string that does not match
`\d+\.\d+\.\d+` under Python's `re.match` semantics (where `$` also accepts
one trailing newline) and every kind other than skip, `increment_versions`
fails with the InvalidFormat `ReleaseError`; with kind skip it returns the
input unchanged and never fails. -/
theorem c9_amended_invalid_format :
    (∀ (n : Nat) (s : Str) (vt : VersionType), vt ≠ VersionType.skip →
        matchesPatternPyDollar s = false →
        increment_versions n s vt = .error (.releaseError
          (("Invalid marketing version format: ").toList ++ s ++
            (". Expected X.Y.Z format.").toList))) ∧
    (∀ (n : Nat) (s : Str), increment_versions n s VersionType.skip = .ok (n, s)) := by
  constructor
  · intro n s vt hvt h
    have hval : validate_version s = false := by
      cases hb : validate_version s
      · rfl
      · rw [validate_imp_pyDollar hb] at h
        exact Bool.noConfusion h
    unfold increment_versions
    rw [if_neg hvt, hval]
    simp
  · intro n s
    simp [increment_versions]

/-- C9 amended witness: `"v1.2.3"` with kind patch fails with the
InvalidFormat error; `"1.2"` with kind skip succeeds unchanged. -/
theorem c9_amended_invalid_format_witness :
    increment_versions 1 (("v1.2.3").toList) VersionType.patch
      = .error (.releaseError (("Invalid marketing version format: ").toList ++
          ("v1.2.3").toList ++ (". Expected X.Y.Z format.").toList)) ∧
    increment_versions 5 (("1.2").toList) VersionType.skip = .ok (5, ("1.2").toList) :=
  ⟨c9_amended_invalid_format.1 1 (("v1.2.3").toList) VersionType.patch (by decide) rfl,
   c9_amended_invalid_format.2 5 (("1.2").toList)⟩

/-- C3 counterexample: start from a filesystem where file `f` holds `v1`;
run `backup(f)`, modify `f` to `v2`, `backup(f)` again, then `rollback()`.
The rolled-back filesystem holds `v2` — the content captured at the *second*
backup call — not the first content `v1`, because `backup_file` overwrites
the earlier ledger entry instead of being a no-op. -/
theorem c3_counterexample :
    (rollback
        (backup_file
          (backup_file RollbackManager.init
            (fsWrite (fun _ => none) (("f").toList) (("v1").toList))
            (("f").toList))
          (fsWrite (fsWrite (fun _ => none) (("f").toList) (("v1").toList))
            (("f").toList) (("v2").toList))
          (("f").toList))
        (fsWrite (fsWrite (fun _ => none) (("f").toList) (("v1").toList))
          (("f").toList) (("v2").toList)))
      (("f").toList) = some (("v2").toList) ∧
    (("v2").toList : Str) ≠ (("v1").toList : Str) :=
  ⟨rfl, by decide⟩

/-- C3 amended: `backup_file` snapshots the file's current contents whenever
the path exists (overwriting any earlier backup of the same path, so the
ledger still holds at most one entry per path), and is a no-op when the path
does not exist; consequently for `backup(f); modify f; backup(f); rollback()`,
rollback restores `f` to the content captured at the *last* backup call. -/
theorem c3_amended_last_backup_wins (fs : FileSys) (p : FilePath) (c1 c2 : Str)
    (hex : fs p = some c1) :
    backup_file RollbackManager.init fs p = ⟨[(p, c1)], [], []⟩ ∧
    (∀ q : FilePath, fs q = none → backup_file RollbackManager.init fs q
        = RollbackManager.init) ∧
    (backup_file (backup_file RollbackManager.init fs p)
        (fsWrite fs p c2) p).backup_files = [(p, c2)] ∧
    rollback
        (backup_file (backup_file RollbackManager.init fs p) (fsWrite fs p c2) p)
        (fsWrite fs p c2) p
      = some c2 := by
  have hb1 : backup_file RollbackManager.init fs p = ⟨[(p, c1)], [], []⟩ := by
    simp [backup_file, hex, RollbackManager.init, dictSet]
  have hw : fsWrite fs p c2 p = some c2 := by
    simp [fsWrite]
  have hb2 : backup_file (backup_file RollbackManager.init fs p)
      (fsWrite fs p c2) p = ⟨[(p, c2)], [], []⟩ := by
    rw [hb1]
    simp [backup_file, hw, dictSet]
  refine ⟨hb1, ?_, by rw [hb2], ?_⟩
  · intro q hq
    simp [backup_file, hq]
  · rw [hb2]
    simp [rollback, fsWrite]

/-- C3 amended witness: concrete run of the amended statement at `f`,
contents `v1` then `v2`. -/
theorem c3_amended_last_backup_wins_witness :
    rollback
        (backup_file
          (backup_file RollbackManager.init
            (fsWrite (fun _ => none) (("g").toList) (("a1").toList)) (("g").toList))
          (fsWrite (fsWrite (fun _ => none) (("g").toList) (("a1").toList))
            (("g").toList) (("a2").toList))
          (("g").toList))
        (fsWrite (fsWrite (fun _ => none) (("g").toList) (("a1").toList))
          (("g").toList) (("a2").toList))
      (("g").toList) = some (("a2").toList) :=
  (c3_amended_last_backup_wins
    (fsWrite (fun _ => none) (("g").toList) (("a1").toList))
    (("g").toList) (("a1").toList) (("a2").toList) rfl).2.2.2

/-- C10: for every config file that exists and parses to a non-empty mapping,
`load_config` succeeds no matter which keys the mapping contains — in
particular it succeeds on mappings missing any of the required keys
(app_name, bundle_identifier, xcode_project, scheme, website_url,
github_owner, github_repo) — and a key absent from the mapping surfaces only
later, as a `KeyError` from `Config.__getitem__`, never as a load-time
error. -/
theorem c10_load_config_lenient (d : List (Str × Str)) (hd : d ≠ []) :
    load_config (some (.value (some d))) = .ok ⟨d⟩ ∧
    ∀ k : Str, assocLookup d k = none →
      (Config.mk d).getitem k = .error (.keyError k) := by
  constructor
  · simp [load_config, hd]
  · intro k hk
    simp [Config.getitem, hk]

/-- C10 witness: a one-entry mapping that lacks every required key loads
fine, and accessing the required key `app_name` afterwards raises
`KeyError`. -/
theorem c10_load_config_lenient_witness :
    load_config (some (.value (some [((("unrelated").toList), (("x").toList))])))
        = .ok ⟨[((("unrelated").toList), (("x").toList))]⟩ ∧
    (Config.mk [((("unrelated").toList), (("x").toList))]).getitem
        (("app_name").toList) = .error (.keyError (("app_name").toList)) := by
  have h := c10_load_config_lenient [((("unrelated").toList), (("x").toList))]
    (by decide)
  exact ⟨h.1, h.2 (("app_name").toList) rfl⟩

lemma isPrefixOf_append_self (p r : Str) : p.isPrefixOf (p ++ r) = true := by
  induction p with
  | nil => simp [List.isPrefixOf]
  | cons c t ih => simp [List.isPrefixOf, ih]

lemma containsSub_mid (pat pre post : Str) :
    containsSub pat (pre ++ (pat ++ post)) = true := by
  induction pre with
  | nil =>
    cases hp : pat ++ post with
    | nil => simp_all [containsSub, List.isPrefixOf]
    | cons c t =>
      simp only [List.nil_append, containsSub, hp, Bool.or_eq_true]
      rw [← hp]
      exact Or.inl (isPrefixOf_append_self pat post)
  | cons c t ih =>
    simp only [List.cons_append, containsSub, Bool.or_eq_true]
    exact Or.inr ih

lemma containsSub_postPushMessage (k : ExcKind) (vs : Str) :
    containsSub vs (postPushMessage k vs) = true := by
  cases k <;> simp only [postPushMessage] <;> rw [List.append_assoc] <;>
    exact containsSub_mid vs _ _

/-- C1: point of no return.  For every run (any oracle of step outcomes, any
computed marketing version, any flag combination): if the commit-tag-push
step completed (both pushes succeeded, so `pushed_to_github` is true) and a
fatal error of any of the three handled classes is raised strictly after it,
the run never calls `rollback()`, exits with code 1, and its report names the
pushed tag `v<marketing>`; if a fatal error is raised before the push step
completes, the run calls `rollback()` and exits with code 1. -/
theorem c1_point_of_no_return (fails : Step → Option ExcKind) (mk : Str)
    (skipSparkle verSkip sentry : Bool) :
    (pushCompleted fails skipSparkle verSkip = true →
      postPushFailure fails sentry = true →
        (mainRun fails mk skipSparkle verSkip sentry).rolledBack = false ∧
        (mainRun fails mk skipSparkle verSkip sentry).exitCode = 1 ∧
        containsSub ('v' :: mk)
          (mainRun fails mk skipSparkle verSkip sentry).message = true) ∧
    (pushCompleted fails skipSparkle verSkip = false →
        (mainRun fails mk skipSparkle verSkip sentry).rolledBack = true ∧
        (mainRun fails mk skipSparkle verSkip sentry).exitCode = 1) := by
  constructor
  · intro hc hp
    simp only [pushCompleted, Bool.and_eq_true, and_assoc, Bool.or_eq_true,
      Option.isNone_iff_eq_none] at hc
    obtain ⟨h1, h2, h3, h4, h5, h6, h7, h8, h9, h10, h11, h12, h13, h14, h15, h16⟩ := hc
    have hup : (if verSkip then none else fails Step.updateProject) = none := by
      rcases h6 with h | h
      · simp [h]
      · cases hb : verSkip <;> simp [h]
    have huk : (if skipSparkle then none else fails Step.unlockKeychain) = none := by
      rcases h10 with h | h
      · simp [h]
      · cases hb : skipSparkle <;> simp [h.1]
    have hsu : (if skipSparkle then none else fails Step.signUpdate) = none := by
      rcases h10 with h | h
      · simp [h]
      · cases hb : skipSparkle <;> simp [h.2.1]
    have hua : (if skipSparkle then none else fails Step.updateAppcast) = none := by
      rcases h10 with h | h
      · simp [h]
      · cases hb : skipSparkle <;> simp [h.2.2]
    rcases hdz : fails Step.dsymsZip with _ | k
    · rcases hgh : fails Step.githubRelease with _ | k
      · simp only [postPushFailure, hdz, hgh, Option.isSome_none, Bool.or_eq_true,
          Bool.and_eq_true, Bool.false_eq_true, false_or] at hp
        rcases hsu2 : fails Step.sentryUpload with _ | k
        · rw [hsu2] at hp
          simp at hp
        · have hm : mainRun fails mk skipSparkle verSkip sentry
              = ⟨1, false, postPushMessage k ('v' :: mk)⟩ := by
            simp [mainRun, mainTry, create_git_commit_and_tag, h1, h2, h3, h4, h5,
              hup, h7, h8, h9, huk, hsu, hua, h11, h12, h13, h14, h15, h16, hdz,
              hgh, hp.1, hsu2]
          rw [hm]
          exact ⟨rfl, rfl, containsSub_postPushMessage k _⟩
      · have hm : mainRun fails mk skipSparkle verSkip sentry
            = ⟨1, false, postPushMessage k ('v' :: mk)⟩ := by
          simp [mainRun, mainTry, create_git_commit_and_tag, h1, h2, h3, h4, h5,
            hup, h7, h8, h9, huk, hsu, hua, h11, h12, h13, h14, h15, h16, hdz, hgh]
        rw [hm]
        exact ⟨rfl, rfl, containsSub_postPushMessage k _⟩
    · have hm : mainRun fails mk skipSparkle verSkip sentry
          = ⟨1, false, postPushMessage k ('v' :: mk)⟩ := by
        simp [mainRun, mainTry, create_git_commit_and_tag, h1, h2, h3, h4, h5,
          hup, h7, h8, h9, huk, hsu, hua, h11, h12, h13, h14, h15, h16, hdz]
      rw [hm]
      exact ⟨rfl, rfl, containsSub_postPushMessage k _⟩
  · intro hc
    cases e1 : fails Step.loadConfig with
    | some k =>
      have hm : mainRun fails mk skipSparkle verSkip sentry = ⟨1, true, []⟩ := by
        simp [mainRun, mainTry, create_git_commit_and_tag, *]
      rw [hm]
      exact ⟨rfl, rfl⟩
    | none =>
      cases e2 : fails Step.validation with
      | some k =>
        have hm : mainRun fails mk skipSparkle verSkip sentry = ⟨1, true, []⟩ := by
          simp [mainRun, mainTry, create_git_commit_and_tag, *]
        rw [hm]
        exact ⟨rfl, rfl⟩
      | none =>
        cases e3 : fails Step.checklist with
        | some k =>
          have hm : mainRun fails mk skipSparkle verSkip sentry = ⟨1, true, []⟩ := by
            simp [mainRun, mainTry, create_git_commit_and_tag, *]
          rw [hm]
          exact ⟨rfl, rfl⟩
        | none =>
          cases e4 : fails Step.getVersions with
          | some k =>
            have hm : mainRun fails mk skipSparkle verSkip sentry = ⟨1, true, []⟩ := by
              simp [mainRun, mainTry, create_git_commit_and_tag, *]
            rw [hm]
            exact ⟨rfl, rfl⟩
          | none =>
            cases e5 : fails Step.incrementVersions with
            | some k =>
              have hm : mainRun fails mk skipSparkle verSkip sentry = ⟨1, true, []⟩ := by
                simp [mainRun, mainTry, create_git_commit_and_tag, *]
              rw [hm]
              exact ⟨rfl, rfl⟩
            | none =>
              cases e6 : (if verSkip then none else fails Step.updateProject) with
              | some k =>
                have hm : mainRun fails mk skipSparkle verSkip sentry = ⟨1, true, []⟩ := by
                  simp [mainRun, mainTry, create_git_commit_and_tag, *]
                rw [hm]
                exact ⟨rfl, rfl⟩
              | none =>
                cases e7 : fails Step.processChangelog with
                | some k =>
                  have hm : mainRun fails mk skipSparkle verSkip sentry = ⟨1, true, []⟩ := by
                    simp [mainRun, mainTry, create_git_commit_and_tag, *]
                  rw [hm]
                  exact ⟨rfl, rfl⟩
                | none =>
                  cases e8 : fails Step.buildArchive with
                  | some k =>
                    have hm : mainRun fails mk skipSparkle verSkip sentry = ⟨1, true, []⟩ := by
                      simp [mainRun, mainTry, create_git_commit_and_tag, *]
                    rw [hm]
                    exact ⟨rfl, rfl⟩
                  | none =>
                    cases e9 : fails Step.createDmg with
                    | some k =>
                      have hm : mainRun fails mk skipSparkle verSkip sentry = ⟨1, true, []⟩ := by
                        simp [mainRun, mainTry, create_git_commit_and_tag, *]
                      rw [hm]
                      exact ⟨rfl, rfl⟩
                    | none =>
                      cases e10 : (if skipSparkle then none else fails Step.unlockKeychain) with
                      | some k =>
                        have hm : mainRun fails mk skipSparkle verSkip sentry = ⟨1, true, []⟩ := by
                          simp [mainRun, mainTry, create_git_commit_and_tag, *]
                        rw [hm]
                        exact ⟨rfl, rfl⟩
                      | none =>
                        cases e11 : (if skipSparkle then none else fails Step.signUpdate) with
                        | some k =>
                          have hm : mainRun fails mk skipSparkle verSkip sentry = ⟨1, true, []⟩ := by
                            simp [mainRun, mainTry, create_git_commit_and_tag, *]
                          rw [hm]
                          exact ⟨rfl, rfl⟩
                        | none =>
                          cases e12 : (if skipSparkle then none else fails Step.updateAppcast) with
                          | some k =>
                            have hm : mainRun fails mk skipSparkle verSkip sentry = ⟨1, true, []⟩ := by
                              simp [mainRun, mainTry, create_git_commit_and_tag, *]
                            rw [hm]
                            exact ⟨rfl, rfl⟩
                          | none =>
                            cases e13 : fails Step.verifyRelease with
                            | some k =>
                              have hm : mainRun fails mk skipSparkle verSkip sentry = ⟨1, true, []⟩ := by
                                simp [mainRun, mainTry, create_git_commit_and_tag, *]
                              rw [hm]
                              exact ⟨rfl, rfl⟩
                            | none =>
                              cases e14 : fails Step.gitAdd with
                              | some k =>
                                have hm : mainRun fails mk skipSparkle verSkip sentry = ⟨1, true, []⟩ := by
                                  simp [mainRun, mainTry, create_git_commit_and_tag, *]
                                rw [hm]
                                exact ⟨rfl, rfl⟩
                              | none =>
                                cases e15 : fails Step.gitCommit with
                                | some k =>
                                  have hm : mainRun fails mk skipSparkle verSkip sentry = ⟨1, true, []⟩ := by
                                    simp [mainRun, mainTry, create_git_commit_and_tag, *]
                                  rw [hm]
                                  exact ⟨rfl, rfl⟩
                                | none =>
                                  cases e16 : fails Step.gitTag with
                                  | some k =>
                                    have hm : mainRun fails mk skipSparkle verSkip sentry = ⟨1, true, []⟩ := by
                                      simp [mainRun, mainTry, create_git_commit_and_tag, *]
                                    rw [hm]
                                    exact ⟨rfl, rfl⟩
                                  | none =>
                                    cases e17 : fails Step.gitPushMain with
                                    | some k =>
                                      have hm : mainRun fails mk skipSparkle verSkip sentry = ⟨1, true, []⟩ := by
                                        simp [mainRun, mainTry, create_git_commit_and_tag, *]
                                      rw [hm]
                                      exact ⟨rfl, rfl⟩
                                    | none =>
                                      cases e18 : fails Step.gitPushTag with
                                      | some k =>
                                        have hm : mainRun fails mk skipSparkle verSkip sentry = ⟨1, true, []⟩ := by
                                          simp [mainRun, mainTry, create_git_commit_and_tag, *]
                                        rw [hm]
                                        exact ⟨rfl, rfl⟩
                                      | none =>
                                        exfalso
                                        have hall : pushCompleted fails skipSparkle verSkip = true := by
                                          cases hvs : verSkip <;> cases hss : skipSparkle <;>
                                            simp_all [pushCompleted]
                                        rw [hall] at hc
                                        exact Bool.noConfusion hc

/-- C1 witness: a run where only the GitHub-release step fails (after both
pushes) exits 1 without rollback and names the tag `v1.2.3`; a run where the
build step fails (before the pushes) rolls back and exits 1. -/
theorem c1_point_of_no_return_witness :
    ((mainRun (fun s => if s = Step.githubRelease then some ExcKind.releaseErr else none)
        (("1.2.3").toList) false false false).rolledBack = false ∧
     (mainRun (fun s => if s = Step.githubRelease then some ExcKind.releaseErr else none)
        (("1.2.3").toList) false false false).exitCode = 1 ∧
     containsSub ('v' :: ("1.2.3").toList)
       (mainRun (fun s => if s = Step.githubRelease then some ExcKind.releaseErr else none)
          (("1.2.3").toList) false false false).message = true) ∧
    ((mainRun (fun s => if s = Step.buildArchive then some ExcKind.releaseErr else none)
        (("1.2.3").toList) false false false).rolledBack = true ∧
     (mainRun (fun s => if s = Step.buildArchive then some ExcKind.releaseErr else none)
        (("1.2.3").toList) false false false).exitCode = 1) :=
  ⟨(c1_point_of_no_return
      (fun s => if s = Step.githubRelease then some ExcKind.releaseErr else none)
      (("1.2.3").toList) false false false).1 (by decide) (by decide),
   (c1_point_of_no_return
      (fun s => if s = Step.buildArchive then some ExcKind.releaseErr else none)
      (("1.2.3").toList) false false false).2 (by decide)⟩

/-- C8: the signer exits nonzero with the known credential-access marker
`Unable to access required key in the Keychain` in its output, yet
`sign_update` raises the generic `ReleaseError("Command failed: ...")` — not
the distinguished Keychain error its own handler builds — because
`run_command` converts `CalledProcessError` into `ReleaseError` before
`sign_update`'s `except subprocess.CalledProcessError` clause can see it.
The ParseError half of the claim does hold: a successful invocation whose
output lacks the signature or length attribute yields the
"Could not parse sign_update output" error. -/
theorem c8_keychain_handler_dead :
    sign_update (("Ctx.dmg").toList) true 1
        (("ERROR! Unable to access required key in the Keychain (-25300)").toList) []
      = .error (.releaseError
          (("Command failed: scripts/bin/sparkle/sign_update Ctx.dmg").toList)) ∧
    sign_update (("Ctx.dmg").toList) true 1
        (("ERROR! Unable to access required key in the Keychain (-25300)").toList) []
      ≠ .error (.releaseError
          (("Sparkle signing failed due to Keychain access issue").toList)) ∧
    sign_update (("Ctx.dmg").toList) true 0
        (("sparkle:edSignature=\"c2ln\" nolength").toList) []
      = .error (.releaseError
          (("Could not parse sign_update output: sparkle:edSignature=\"c2ln\" nolength").toList)) :=
  ⟨rfl, by decide, rfl⟩

/-- C2 counterexample: a descriptor whose matching buildSettings block
contains a nested brace pair.  The write side pairs braces by depth counting
and updates both fields, but the read side's regex `\{([^}]+)\};` cuts the
block at the first closing brace, so `get_current_versions` after
`update_project_versions` raises the not-found `ReleaseError` instead of
returning the written pair `(2, "1.0.1")`. -/
theorem c2_counterexample :
    update_project_versions
        (("buildSettings = \x7bA = \x7bB;\x7d; PRODUCT_BUNDLE_IDENTIFIER = com.x; CURRENT_PROJECT_VERSION = 1; MARKETING_VERSION = 1.0.0;\x7d;").toList)
        (("com.x").toList) 2 (("1.0.1").toList)
      = (("buildSettings = \x7bA = \x7bB;\x7d; PRODUCT_BUNDLE_IDENTIFIER = com.x; CURRENT_PROJECT_VERSION = 2; MARKETING_VERSION = 1.0.1;\x7d;").toList) ∧
    get_current_versions
        (("buildSettings = \x7bA = \x7bB;\x7d; PRODUCT_BUNDLE_IDENTIFIER = com.x; CURRENT_PROJECT_VERSION = 2; MARKETING_VERSION = 1.0.1;\x7d;").toList)
        (("com.x").toList)
      = .error (.releaseError
          (("Could not find version numbers for bundle identifier com.x").toList)) :=
  ⟨rfl, rfl⟩

/-- C5 counterexample: a descriptor with one buildSettings opener whose brace
is never closed.  `find_matching_brace` reports `-1` (`none`), and
`update_project_versions` silently `continue`s past the block and writes the
unmodified text back; it raises no error at all (its embedding is a total
function into the written text — the source has no raise between reading and
writing the file), contradicting the claimed fatal MalformedDescriptor
error. -/
theorem c5_counterexample :
    scanOpeners (("buildSettings = \x7b\n\t\tPRODUCT_BUNDLE_IDENTIFIER = com.x;\n").toList)
      = [16] ∧
    find_matching_brace
        (("buildSettings = \x7b\n\t\tPRODUCT_BUNDLE_IDENTIFIER = com.x;\n").toList) 16
      = none ∧
    update_project_versions
        (("buildSettings = \x7b\n\t\tPRODUCT_BUNDLE_IDENTIFIER = com.x;\n").toList)
        (("com.x").toList) 2 (("1.0.1").toList)
      = (("buildSettings = \x7b\n\t\tPRODUCT_BUNDLE_IDENTIFIER = com.x;\n").toList) :=
  ⟨rfl, rfl, rfl⟩

lemma upvLoop_all_unbalanced (content bid : Str) (np : Nat) (nm : Str) :
    ∀ (ps : List Nat) (m : Str) (off : Int),
      (∀ p ∈ ps, find_matching_brace content p = none) →
      upvLoop content bid np nm ps m off = m := by
  intro ps
  induction ps with
  | nil => intro m off _; rfl
  | cons p t ih =>
    intro m off h
    have hp : find_matching_brace content p = none := h p (by simp)
    have ht : ∀ q ∈ t, find_matching_brace content q = none :=
      fun q hq => h q (by simp [hq])
    simp [upvLoop, hp, ih m off ht]

/-- C5 amended: for every descriptor in which every buildSettings opener has
unbalanced braces (the depth counter never returns to zero), 
`update_project_versions` raises no error: it skips each such block
(`continue` on `find_matching_brace`'s `-1`) and writes the file back
unmodified.  No MalformedDescriptor error exists in the program. -/
theorem c5_amended_unbalanced_skipped (content bid : Str) (np : Nat) (nm : Str)
    (h : ∀ p ∈ scanOpeners content, find_matching_brace content p = none) :
    update_project_versions content bid np nm = content := by
  unfold update_project_versions
  exact upvLoop_all_unbalanced content bid np nm (scanOpeners content) content 0 h

/-- C5 amended witness: the unbalanced one-block descriptor is written back
unchanged. -/
theorem c5_amended_unbalanced_skipped_witness :
    update_project_versions
        (("buildSettings = \x7b\nCURRENT_PROJECT_VERSION = 1;\n").toList)
        (("com.x").toList) 9 (("9.9.9").toList)
      = (("buildSettings = \x7b\nCURRENT_PROJECT_VERSION = 1;\n").toList) :=
  c5_amended_unbalanced_skipped
    (("buildSettings = \x7b\nCURRENT_PROJECT_VERSION = 1;\n").toList)
    (("com.x").toList) 9 (("9.9.9").toList) (by decide)

/-- C6 counterexample: two buildSettings blocks both contain the exact
bundle-identifier assignment; the first has only the build-number field, the
second only the marketing-version field.  `get_current_versions` returns
`(7, "1.2.3")`, assembling the two fields from two different blocks, instead
of raising the not-found error for a block missing a needed field. -/
theorem c6_counterexample :
    scanBlocks (("buildSettings = \x7bPRODUCT_BUNDLE_IDENTIFIER = com.x;CURRENT_PROJECT_VERSION = 7;\x7d;buildSettings = \x7bPRODUCT_BUNDLE_IDENTIFIER = com.x;MARKETING_VERSION = 1.2.3;\x7d;").toList)
      = [(("PRODUCT_BUNDLE_IDENTIFIER = com.x;CURRENT_PROJECT_VERSION = 7;").toList),
         (("PRODUCT_BUNDLE_IDENTIFIER = com.x;MARKETING_VERSION = 1.2.3;").toList)] ∧
    reSearchCap mvLit isDigitOrDot ';'
        (("PRODUCT_BUNDLE_IDENTIFIER = com.x;CURRENT_PROJECT_VERSION = 7;").toList) = none ∧
    reSearchCap cpvLit isDigitC ';'
        (("PRODUCT_BUNDLE_IDENTIFIER = com.x;MARKETING_VERSION = 1.2.3;").toList) = none ∧
    get_current_versions
        (("buildSettings = \x7bPRODUCT_BUNDLE_IDENTIFIER = com.x;CURRENT_PROJECT_VERSION = 7;\x7d;buildSettings = \x7bPRODUCT_BUNDLE_IDENTIFIER = com.x;MARKETING_VERSION = 1.2.3;\x7d;").toList)
        (("com.x").toList)
      = .ok (7, ("1.2.3").toList) :=
  ⟨rfl, rfl, rfl, rfl⟩

lemma digitChar_digit (n : Nat) : isDigitC (digitChar n) = true := by
  unfold digitChar
  split <;> decide

lemma natToStrF_all_digit : ∀ (f n : Nat), (natToStrF f n).all isDigitC = true := by
  intro f
  induction f with
  | zero => intro n; simp [natToStrF, digitChar_digit]
  | succ f ih =>
    intro n
    unfold natToStrF
    by_cases h : n < 10
    · simp [h, digitChar_digit]
    · simp [h, List.all_append, ih, digitChar_digit]

lemma natToStr_all_digit (n : Nat) : (natToStr n).all isDigitC = true :=
  natToStrF_all_digit n n

lemma natToStrF_ne_nil : ∀ (f n : Nat), natToStrF f n ≠ [] := by
  intro f n
  cases f with
  | zero => simp [natToStrF]
  | succ f =>
    unfold natToStrF
    by_cases h : n < 10 <;> simp [h]

lemma natToStr_ne_nil (n : Nat) : natToStr n ≠ [] := natToStrF_ne_nil n n

lemma digitVal_digitChar {d : Nat} (h : d < 10) : (digitChar d).toNat - 48 = d := by
  interval_cases d <;> decide

lemma digitsVal_append_singleton (xs : Str) (c : Char) :
    digitsVal (xs ++ [c]) = 10 * digitsVal xs + (c.toNat - 48) := by
  simp [digitsVal, List.foldl_append]

lemma digitsVal_natToStrF : ∀ (f n : Nat), n ≤ f → digitsVal (natToStrF f n) = n := by
  intro f
  induction f with
  | zero =>
    intro n h
    have : n = 0 := by omega
    subst this
    decide
  | succ f ih =>
    intro n h
    unfold natToStrF
    by_cases h10 : n < 10
    · rw [if_pos h10]
      have : digitsVal [digitChar n] = (digitChar n).toNat - 48 := by
        simp [digitsVal]
      rw [this, digitVal_digitChar h10]
    · rw [if_neg h10, digitsVal_append_singleton, ih (n / 10) (by omega),
        digitVal_digitChar (show n % 10 < 10 by omega)]
      omega

lemma digitsVal_natToStr (n : Nat) : digitsVal (natToStr n) = n :=
  digitsVal_natToStrF n n le_rfl

lemma all_weaken {p q : Char → Bool} (h : ∀ c, p c = true → q c = true) :
    ∀ {l : Str}, l.all p = true → l.all q = true := by
  intro l hl
  exact List.all_eq_true.mpr fun x hx => h x (List.all_eq_true.mp hl x hx)

lemma digit_notBrace {c : Char} (h : isDigitC c = true) : notBrace c = true := by
  simp only [isDigitC, Bool.and_eq_true, decide_eq_true_eq] at h
  simp only [notBrace, bne_iff_ne, ne_eq, Bool.and_eq_true]
  constructor <;> intro e <;> rw [e] at h <;> revert h <;> decide

lemma digitOrDot_notBrace {c : Char} (h : isDigitOrDot c = true) : notBrace c = true := by
  simp only [isDigitOrDot, Bool.or_eq_true] at h
  rcases h with h | h
  · exact digit_notBrace h
  · simp only [decide_eq_true_eq] at h
    subst h
    decide

lemma notBrace_ne_close {c : Char} (h : notBrace c = true) : (c != '\x7d') = true := by
  simp only [notBrace, Bool.and_eq_true] at h
  exact h.2

lemma takeWhile_append_stop {p : Char → Bool} (a : Str) (c : Char) (r : Str)
    (ha : a.all p = true) (hc : p c = false) :
    (a ++ c :: r).takeWhile p = a := by
  induction a with
  | nil => simp [List.takeWhile_cons, hc]
  | cons x t ih =>
    simp only [List.all_cons, Bool.and_eq_true] at ha
    simp [List.takeWhile_cons, ha.1, ih ha.2]

lemma flatten_map_nil {A : Type} (J : Str) :
    (J.map fun _ => ([] : List A)).flatten = [] := by
  induction J with
  | nil => rfl
  | cons c t ih => simp [ih]

lemma flatten_map_singleton (J : Str) : (J.map fun c => [c]).flatten = J := by
  induction J with
  | nil => rfl
  | cons c t ih => simp [ih]

lemma scanGenF_nil {A : Type} (step : Nat → Str → Option (Nat × List A))
    (miss : Char → List A) (f base : Nat) : scanGenF step miss f base [] = [] := by
  cases f <;> rfl

lemma scanGenF_fuel_aux {A : Type} (step : Nat → Str → Option (Nat × List A))
    (miss : Char → List A) :
    ∀ (n : Nat) (s : Str), s.length ≤ n → ∀ (f g base : Nat),
      s.length ≤ f → s.length ≤ g →
      scanGenF step miss f base s = scanGenF step miss g base s := by
  intro n
  induction n with
  | zero =>
    intro s hs f g base _ _
    have : s = [] := by
      cases s with
      | nil => rfl
      | cons c t => simp at hs
    subst this
    rw [scanGenF_nil, scanGenF_nil]
  | succ n ih =>
    intro s hs f g base hf hg
    cases s with
    | nil => rw [scanGenF_nil, scanGenF_nil]
    | cons c t =>
      simp only [List.length_cons] at hs hf hg
      cases f with
      | zero => omega
      | succ f' =>
        cases g with
        | zero => omega
        | succ g' =>
          simp only [scanGenF]
          cases hstep : step base (c :: t) with
          | none =>
            simp only [hstep]
            congr 1
            exact ih t (by omega) f' g' (base + 1) (by omega) (by omega)
          | some x =>
            simp only [hstep]
            congr 1
            exact ih (List.drop (x.1 - 1) t) (by simp [List.length_drop]; omega)
              f' g' (base + x.1) (by simp [List.length_drop]; omega)
              (by simp [List.length_drop]; omega)

lemma scanGenF_fuel {A : Type} (step : Nat → Str → Option (Nat × List A))
    (miss : Char → List A) (s : Str) (f base : Nat) (hf : s.length ≤ f) :
    scanGenF step miss f base s = scanGenF step miss s.length base s :=
  scanGenF_fuel_aux step miss s.length s le_rfl f s.length base hf le_rfl

lemma scanGenF_junk {A : Type} (step : Nat → Str → Option (Nat × List A))
    (miss : Char → List A) (J R : Str)
    (h : ∀ b i, i < J.length → step b (List.drop i (J ++ R)) = none) :
    ∀ base, scanGenF step miss (J ++ R).length base (J ++ R)
      = (J.map miss).flatten ++ scanGenF step miss R.length (base + J.length) R := by
  induction J with
  | nil => intro base; simp
  | cons c J' ih =>
    intro base
    have h0 : step base (c :: (J' ++ R)) = none := by
      have := h base 0 (by simp)
      simpa using this
    show scanGenF step miss ((c :: J') ++ R).length base ((c :: J') ++ R) = _
    rw [List.cons_append]
    simp only [List.length_cons, scanGenF, h0]
    have ih' := ih (fun b i hi => by
      have := h b (i + 1) (by simp only [List.length_cons]; omega)
      simpa [List.drop_succ_cons] using this) (base + 1)
    rw [ih']
    simp [List.append_assoc]
    congr 1
    omega

lemma scanGenF_step {A : Type} (step : Nat → Str → Option (Nat × List A))
    (miss : Char → List A) (s : Str) (base k : Nat) (out : List A)
    (hne : s ≠ []) (hk : 1 ≤ k) (hm : step base s = some (k, out)) :
    scanGenF step miss s.length base s
      = out ++ scanGenF step miss (s.drop k).length (base + k) (s.drop k) := by
  cases s with
  | nil => exact absurd rfl hne
  | cons c t =>
    simp only [List.length_cons, scanGenF, hm]
    congr 1
    have hd : List.drop (k - 1) t = (c :: t).drop k := by
      cases k with
      | zero => omega
      | succ k' => simp [List.drop_succ_cons]
    rw [hd]
    exact scanGenF_fuel step miss ((c :: t).drop k) t.length (base + k)
      (by simp [List.length_drop]; omega)

lemma opener_length : opener.length = 17 := by decide

lemma tryOpenerAt_opener (r : Str) : tryOpenerAt (opener ++ r) = some 17 := by
  rfl

lemma tryAttr_exact (litv : Str) (pred : Char → Bool) (close : Char) (cap rest : Str)
    (hcap : cap ≠ []) (hall : cap.all pred = true) (hclose : pred close = false) :
    tryAttr litv pred close (litv ++ (cap ++ close :: rest))
      = some (litv.length + cap.length + 1, cap) := by
  have hbe : cap.isEmpty = false := by
    cases cap with
    | nil => exact absurd rfl hcap
    | cons a b => rfl
  simp only [tryAttr, if_pos (isPrefixOf_append_self litv _), List.drop_left,
    takeWhile_append_stop cap close rest hall hclose, hbe, Bool.false_eq_true,
    if_false, List.drop_left]
  simp

lemma tryBlockAt_exact (body rest : Str) (hne : body ≠ [])
    (hnb : body.all (fun c => c != '\x7d') = true) :
    tryBlockAt (opener ++ (body ++ '\x7d' :: ';' :: rest))
      = some (17 + body.length + 2, body) := by
  have hbe : body.isEmpty = false := by
    cases body with
    | nil => exact absurd rfl hne
    | cons a b => rfl
  have h17 : List.drop 17 (opener ++ (body ++ '\x7d' :: ';' :: rest))
      = body ++ '\x7d' :: ';' :: rest := List.drop_left' opener_length
  simp only [tryBlockAt, tryOpenerAt_opener, h17,
    takeWhile_append_stop body '\x7d' (';' :: rest) hnb (by decide), hbe,
    Bool.false_eq_true, if_false]
  rw [List.drop_left]
  simp

lemma fmbGo_flat : ∀ (body : Str) (rest : Str) (pos : Nat),
    body.all notBrace = true →
    fmbGo (body ++ '\x7d' :: rest) 1 pos = some (pos + body.length) := by
  intro body
  induction body with
  | nil =>
    intro rest pos _
    show fmbGo ('\x7d' :: rest) 1 pos = some (pos + 0)
    simp [fmbGo]
  | cons c t ih =>
    intro rest pos h
    simp only [List.all_cons, Bool.and_eq_true] at h
    have hc : notBrace c = true := h.1
    simp only [notBrace, Bool.and_eq_true, bne_iff_ne, ne_eq] at hc
    show fmbGo (c :: (t ++ '\x7d' :: rest)) 1 pos = _
    simp only [fmbGo, if_neg hc.1, if_neg hc.2]
    rw [ih rest (pos + 1) h.2]
    congr 1
    simp
    omega

lemma fmb_at (content : Str) (p : Nat) (body rest : Str)
    (hd : content.drop (p + 1) = body ++ '\x7d' :: rest)
    (hb : body.all notBrace = true) :
    find_matching_brace content p = some (p + 1 + body.length) := by
  unfold find_matching_brace
  rw [hd]
  exact fmbGo_flat body rest (p + 1) hb

lemma reSearchCap_junk (litv : Str) (pred : Char → Bool) (close : Char) (J R : Str)
    (h : ∀ i, i < J.length → tryAttr litv pred close (List.drop i (J ++ R)) = none) :
    reSearchCap litv pred close (J ++ R) = reSearchCap litv pred close R := by
  induction J with
  | nil => rfl
  | cons c J' ih =>
    have h0 : tryAttr litv pred close (c :: (J' ++ R)) = none := by
      have := h 0 (by simp)
      simpa using this
    show reSearchCap litv pred close (c :: (J' ++ R)) = _
    simp only [reSearchCap, h0]
    exact ih fun i hi => by
      have := h (i + 1) (by simp only [List.length_cons]; omega)
      simpa [List.drop_succ_cons] using this

lemma reSearchCap_hit (litv : Str) (pred : Char → Bool) (close : Char) (s : Str)
    (x : Nat × Str) (hne : s ≠ []) (h : tryAttr litv pred close s = some x) :
    reSearchCap litv pred close s = some x.2 := by
  cases s with
  | nil => exact absurd rfl hne
  | cons c t => simp only [reSearchCap, h]

lemma blkRaw_append (body X : Str) :
    blkRaw body ++ X = opener ++ ((body ++ blkClose) ++ X) := by
  simp [blkRaw, List.append_assoc]

lemma blkTail_length (body : Str) : (body ++ blkClose).length = body.length + 2 := by
  simp [blkClose]

lemma scanGenF_all_junk {A : Type} (step : Nat → Str → Option (Nat × List A))
    (miss : Char → List A) (J : Str)
    (h : ∀ b i, i < J.length → step b (List.drop i J) = none) :
    ∀ base, scanGenF step miss J.length base J = (J.map miss).flatten := by
  induction J with
  | nil => intro base; rfl
  | cons c J' ih =>
    intro base
    have h0 : step base (c :: J') = none := by
      have := h base 0 (by simp)
      simpa using this
    simp only [List.length_cons, scanGenF, h0]
    rw [ih (fun b i hi => by
      have := h b (i + 1) (by simp only [List.length_cons]; omega)
      simpa [List.drop_succ_cons] using this) (base + 1)]
    simp

lemma scanOpeners_structured (A B C T D : Str)
    (hA : noOpenerIn A (blkRaw B ++ (C ++ (blkRaw T ++ D))))
    (hB : noOpenerIn (B ++ blkClose) (C ++ (blkRaw T ++ D)))
    (hC : noOpenerIn C (blkRaw T ++ D))
    (hT : noOpenerIn (T ++ blkClose) D)
    (hD : ∀ i, i < D.length → tryOpenerAt (List.drop i D) = none) :
    scanOpeners (A ++ (blkRaw B ++ (C ++ (blkRaw T ++ D))))
      = [A.length + 16, A.length + B.length + C.length + 35] := by
  unfold scanOpeners
  rw [scanGenF_junk _ _ A _
    (fun b i hi => by have := hA i hi; simpa [List.append_assoc] using this) 0]
  rw [flatten_map_nil, List.nil_append, blkRaw_append]
  rw [scanGenF_step _ _ (opener ++ ((B ++ blkClose) ++ (C ++ (blkRaw T ++ D))))
    (0 + A.length) 17 _ (by simp [opener]) (by omega)
    (by rw [tryOpenerAt_opener]; rfl)]
  rw [List.drop_left' opener_length]
  rw [scanGenF_junk _ _ (B ++ blkClose) _
    (fun b i hi => by have := hB i hi; simpa [List.append_assoc] using this) _]
  rw [flatten_map_nil, List.nil_append]
  rw [scanGenF_junk _ _ C _
    (fun b i hi => by have := hC i hi; simpa [List.append_assoc] using this) _]
  rw [flatten_map_nil, List.nil_append, blkRaw_append]
  rw [scanGenF_step _ _ (opener ++ ((T ++ blkClose) ++ D)) _ 17 _
    (by simp [opener]) (by omega) (by rw [tryOpenerAt_opener]; rfl)]
  rw [List.drop_left' opener_length]
  rw [scanGenF_junk _ _ (T ++ blkClose) _
    (fun b i hi => by have := hT i hi; simpa [List.append_assoc] using this) _]
  rw [flatten_map_nil, List.nil_append]
  rw [scanGenF_all_junk _ _ D (fun b i hi => by simpa using hD i hi) _]
  rw [flatten_map_nil]
  simp [blkClose, List.cons.injEq]
  omega

lemma blkRaw_append' (b X : Str) :
    blkRaw b ++ X = opener ++ (b ++ '\x7d' :: ';' :: X) := by
  simp [blkRaw, blkClose, List.append_assoc]

lemma blk_prefix_assoc (b X : Str) :
    opener ++ (b ++ '\x7d' :: ';' :: X) = (opener ++ (b ++ blkClose)) ++ X := by
  simp [blkClose, List.append_assoc]

lemma blk_prefix_length (b : Str) :
    (opener ++ (b ++ blkClose)).length = 17 + b.length + 2 := by
  simp [List.length_append, opener_length, blkClose]
  omega

lemma drop_blk (b X : Str) :
    (opener ++ (b ++ '\x7d' :: ';' :: X)).drop (17 + b.length + 2) = X := by
  rw [blk_prefix_assoc]
  exact List.drop_left' (blk_prefix_length b)

lemma scanBlocks_structured (A B C T D : Str)
    (hA : noBlockIn A (blkRaw B ++ (C ++ (blkRaw T ++ D))))
    (hC : noBlockIn C (blkRaw T ++ D))
    (hD : ∀ i, i < D.length → tryBlockAt (List.drop i D) = none)
    (hBne : B ≠ []) (hBnb : B.all (fun c => c != '\x7d') = true)
    (hTne : T ≠ []) (hTnb : T.all (fun c => c != '\x7d') = true) :
    scanBlocks (A ++ (blkRaw B ++ (C ++ (blkRaw T ++ D)))) = [B, T] := by
  unfold scanBlocks
  rw [scanGenF_junk _ _ A _
    (fun b i hi => by have := hA i hi; simpa [List.append_assoc] using this) 0]
  rw [flatten_map_nil, List.nil_append, blkRaw_append']
  rw [scanGenF_step _ _ (opener ++ (B ++ '\x7d' :: ';' :: (C ++ (blkRaw T ++ D))))
    (0 + A.length) (17 + B.length + 2) [B] (by simp [opener]) (by omega)
    (by rw [tryBlockAt_exact _ _ hBne hBnb]; rfl)]
  rw [drop_blk]
  rw [scanGenF_junk _ _ C _
    (fun b i hi => by have := hC i hi; simpa [List.append_assoc] using this) _]
  rw [flatten_map_nil, List.nil_append, blkRaw_append']
  rw [scanGenF_step _ _ (opener ++ (T ++ '\x7d' :: ';' :: D)) _ (17 + T.length + 2)
    [T] (by simp [opener]) (by omega) (by rw [tryBlockAt_exact _ _ hTne hTnb]; rfl)]
  rw [drop_blk]
  rw [scanGenF_all_junk _ _ D (fun b i hi => by simpa using hD i hi) _]
  rw [flatten_map_nil]
  rfl

lemma attr_prefix_assoc (litv cap tail : Str) (close : Char) :
    litv ++ (cap ++ close :: tail) = (litv ++ (cap ++ [close])) ++ tail := by
  simp [List.append_assoc]

lemma attr_prefix_length (litv cap : Str) (close : Char) :
    (litv ++ (cap ++ [close])).length = litv.length + cap.length + 1 := by
  simp [List.length_append]
  omega

lemma substAll_structured (litv : Str) (pred : Char → Bool) (close : Char)
    (repl u cap tail : Str)
    (hu : noAttrIn litv pred close u (litv ++ (cap ++ close :: tail)))
    (hcap : cap ≠ []) (hall : cap.all pred = true) (hclose : pred close = false)
    (htail : ∀ i, i < tail.length → tryAttr litv pred close (List.drop i tail) = none) :
    substAll litv pred close repl (u ++ (litv ++ (cap ++ close :: tail)))
      = u ++ (repl ++ tail) := by
  unfold substAll
  rw [scanGenF_junk _ _ u _
    (fun b i hi => by have := hu i hi; simpa [List.append_assoc] using this) 0]
  rw [flatten_map_singleton]
  rw [scanGenF_step _ _ (litv ++ (cap ++ close :: tail)) (0 + u.length)
    (litv.length + cap.length + 1) repl (by simp) (by omega)
    (by rw [tryAttr_exact litv pred close cap tail hcap hall hclose]; rfl)]
  rw [show (litv ++ (cap ++ close :: tail)).drop (litv.length + cap.length + 1)
      = tail from by
    rw [attr_prefix_assoc]
    exact List.drop_left' (attr_prefix_length litv cap close)]
  rw [scanGenF_all_junk _ _ tail (fun b i hi => by simpa using htail i hi) _]
  rw [flatten_map_singleton]

lemma reSearchCap_structured (litv : Str) (pred : Char → Bool) (close : Char)
    (u cap tail : Str)
    (hu : noAttrIn litv pred close u (litv ++ (cap ++ close :: tail)))
    (hcap : cap ≠ []) (hall : cap.all pred = true) (hclose : pred close = false) :
    reSearchCap litv pred close (u ++ (litv ++ (cap ++ close :: tail))) = some cap := by
  rw [reSearchCap_junk litv pred close u _ fun i hi => hu i hi]
  rw [reSearchCap_hit litv pred close _ (litv.length + cap.length + 1, cap)
    (by simp) (tryAttr_exact litv pred close cap tail hcap hall hclose)]

lemma pySliceTo_nat (s : Str) (n : Nat) : pySliceTo s (n : Int) = s.take n := by
  unfold pySliceTo pyIdx
  rw [if_neg (by omega)]
  simp only [Int.toNat_natCast]
  rcases Nat.le_total n s.length with h | h
  · rw [min_eq_left h]
  · rw [min_eq_right h, List.take_of_length_le h, List.take_of_length_le (by omega)]

lemma pySliceFrom_nat (s : Str) (n : Nat) : pySliceFrom s (n : Int) = s.drop n := by
  unfold pySliceFrom pyIdx
  rw [if_neg (by omega)]
  simp only [Int.toNat_natCast]
  rcases Nat.le_total n s.length with h | h
  · rw [min_eq_left h]
  · rw [min_eq_right h, List.drop_of_length_le h, List.drop_of_length_le (by omega)]

lemma tBody_subst (u1 dOld u2 vOld u3 u4 bid : Str) (np : Nat) (nm : Str)
    (hcpvU : noAttrIn cpvLit isDigitC ';' u1
      (cpvLit ++ (dOld ++ ';' :: tailCpv u2 vOld u3 bid u4)))
    (hd1 : dOld ≠ []) (hd2 : dOld.all isDigitC = true)
    (hcpvT : ∀ i, i < (tailCpv u2 vOld u3 bid u4).length →
      tryAttr cpvLit isDigitC ';' (List.drop i (tailCpv u2 vOld u3 bid u4)) = none)
    (hmvU : noAttrIn mvLit isDigitOrDot ';' (u1 ++ (cpvRepl np ++ u2))
      (mvLit ++ (vOld ++ ';' :: tailBid u3 bid u4)))
    (hv1 : vOld ≠ []) (hv2 : vOld.all isDigitOrDot = true)
    (hmvT : ∀ i, i < (tailBid u3 bid u4).length →
      tryAttr mvLit isDigitOrDot ';' (List.drop i (tailBid u3 bid u4)) = none) :
    substAll mvLit isDigitOrDot ';' (mvRepl nm)
        (substAll cpvLit isDigitC ';' (cpvRepl np) (tBody u1 dOld u2 vOld u3 bid u4))
      = tBodyNew u1 u2 u3 u4 bid np nm := by
  rw [show tBody u1 dOld u2 vOld u3 bid u4
      = u1 ++ (cpvLit ++ (dOld ++ ';' :: tailCpv u2 vOld u3 bid u4)) from rfl]
  rw [substAll_structured cpvLit isDigitC ';' (cpvRepl np) u1 dOld
    (tailCpv u2 vOld u3 bid u4) hcpvU hd1 hd2 (by decide) hcpvT]
  rw [show u1 ++ (cpvRepl np ++ tailCpv u2 vOld u3 bid u4)
      = (u1 ++ (cpvRepl np ++ u2)) ++
          (mvLit ++ (vOld ++ ';' :: tailBid u3 bid u4)) from by
    simp [tailCpv, List.append_assoc]]
  rw [substAll_structured mvLit isDigitOrDot ';' (mvRepl nm)
    (u1 ++ (cpvRepl np ++ u2)) vOld (tailBid u3 bid u4) hmvU hv1 hv2 (by decide) hmvT]
  simp [tBodyNew, List.append_assoc]

lemma upv_structured (A B C u1 dOld u2 vOld u3 u4 D bid : Str) (np : Nat) (nm : Str)
    (hA : noOpenerIn A (blkRaw B ++ (C ++ (blkRaw (tBody u1 dOld u2 vOld u3 bid u4) ++ D))))
    (hB : noOpenerIn (B ++ blkClose) (C ++ (blkRaw (tBody u1 dOld u2 vOld u3 bid u4) ++ D)))
    (hC : noOpenerIn C (blkRaw (tBody u1 dOld u2 vOld u3 bid u4) ++ D))
    (hT : noOpenerIn (tBody u1 dOld u2 vOld u3 bid u4 ++ blkClose) D)
    (hD : ∀ i, i < D.length → tryOpenerAt (List.drop i D) = none)
    (hBflat : B.all notBrace = true)
    (hTflat : (tBody u1 dOld u2 vOld u3 bid u4).all notBrace = true)
    (hBnobid : containsSub (bidAssign bid) B = false)
    (hcpvU : noAttrIn cpvLit isDigitC ';' u1
      (cpvLit ++ (dOld ++ ';' :: tailCpv u2 vOld u3 bid u4)))
    (hd1 : dOld ≠ []) (hd2 : dOld.all isDigitC = true)
    (hcpvT : ∀ i, i < (tailCpv u2 vOld u3 bid u4).length →
      tryAttr cpvLit isDigitC ';' (List.drop i (tailCpv u2 vOld u3 bid u4)) = none)
    (hmvU : noAttrIn mvLit isDigitOrDot ';' (u1 ++ (cpvRepl np ++ u2))
      (mvLit ++ (vOld ++ ';' :: tailBid u3 bid u4)))
    (hv1 : vOld ≠ []) (hv2 : vOld.all isDigitOrDot = true)
    (hmvT : ∀ i, i < (tailBid u3 bid u4).length →
      tryAttr mvLit isDigitOrDot ';' (List.drop i (tailBid u3 bid u4)) = none) :
    update_project_versions
        (A ++ (blkRaw B ++ (C ++ (blkRaw (tBody u1 dOld u2 vOld u3 bid u4) ++ D))))
        bid np nm
      = A ++ (blkRaw B ++ (C ++ (blkRaw (tBodyNew u1 u2 u3 u4 bid np nm) ++ D))) := by
  have hTne : tBody u1 dOld u2 vOld u3 bid u4 ≠ [] := by
    simp [tBody, cpvLit]
  unfold update_project_versions
  rw [scanOpeners_structured A B C (tBody u1 dOld u2 vOld u3 bid u4) D hA hB hC hT hD]
  have hdrop1 : (A ++ (blkRaw B ++ (C ++ (blkRaw (tBody u1 dOld u2 vOld u3 bid u4) ++ D)))).drop
      (A.length + 16 + 1)
      = B ++ ('\x7d' :: (';' :: (C ++ (blkRaw (tBody u1 dOld u2 vOld u3 bid u4) ++ D)))) := by
    rw [show A ++ (blkRaw B ++ (C ++ (blkRaw (tBody u1 dOld u2 vOld u3 bid u4) ++ D)))
        = (A ++ opener) ++ (B ++ ('\x7d' :: (';' :: (C ++ (blkRaw (tBody u1 dOld u2 vOld u3 bid u4) ++ D))))) from by
      simp [blkRaw, blkClose, List.append_assoc]]
    exact List.drop_left' (by simp [List.length_append, opener_length])
  have hfmb1 : find_matching_brace
      (A ++ (blkRaw B ++ (C ++ (blkRaw (tBody u1 dOld u2 vOld u3 bid u4) ++ D))))
      (A.length + 16) = some (A.length + 16 + 1 + B.length) :=
    fmb_at _ _ B _ hdrop1 hBflat
  have hblk1 : ((A ++ (blkRaw B ++ (C ++ (blkRaw (tBody u1 dOld u2 vOld u3 bid u4) ++ D)))).drop
      (A.length + 16 + 1)).take (A.length + 16 + 1 + B.length - (A.length + 16 + 1)) = B := by
    rw [hdrop1, Nat.add_sub_cancel_left]
    exact List.take_left' rfl
  have hdrop2 : (A ++ (blkRaw B ++ (C ++ (blkRaw (tBody u1 dOld u2 vOld u3 bid u4) ++ D)))).drop
      (A.length + B.length + C.length + 35 + 1)
      = tBody u1 dOld u2 vOld u3 bid u4 ++ ('\x7d' :: (';' :: D)) := by
    rw [show A ++ (blkRaw B ++ (C ++ (blkRaw (tBody u1 dOld u2 vOld u3 bid u4) ++ D)))
        = (A ++ (blkRaw B ++ (C ++ opener))) ++
            (tBody u1 dOld u2 vOld u3 bid u4 ++ ('\x7d' :: (';' :: D))) from by
      simp [blkRaw, blkClose, List.append_assoc]]
    exact List.drop_left' (by
      simp [List.length_append, opener_length, blkRaw, blkClose]
      omega)
  have hfmb2 : find_matching_brace
      (A ++ (blkRaw B ++ (C ++ (blkRaw (tBody u1 dOld u2 vOld u3 bid u4) ++ D))))
      (A.length + B.length + C.length + 35)
      = some (A.length + B.length + C.length + 35 + 1 + (tBody u1 dOld u2 vOld u3 bid u4).length) :=
    fmb_at _ _ _ _ hdrop2 hTflat
  have hblk2 : ((A ++ (blkRaw B ++ (C ++ (blkRaw (tBody u1 dOld u2 vOld u3 bid u4) ++ D)))).drop
      (A.length + B.length + C.length + 35 + 1)).take
      (A.length + B.length + C.length + 35 + 1 + (tBody u1 dOld u2 vOld u3 bid u4).length
        - (A.length + B.length + C.length + 35 + 1)) = tBody u1 dOld u2 vOld u3 bid u4 := by
    rw [hdrop2, Nat.add_sub_cancel_left]
    exact List.take_left' rfl
  have hcs2 : containsSub (bidAssign bid) (tBody u1 dOld u2 vOld u3 bid u4) = true := by
    rw [show tBody u1 dOld u2 vOld u3 bid u4
        = (u1 ++ (cpvLit ++ (dOld ++ ';' :: (u2 ++ (mvLit ++ (vOld ++ ';' :: u3)))))) ++
            (bidAssign bid ++ u4) from by
      simp [tBody, tailCpv, tailBid, List.append_assoc]]
    exact containsSub_mid _ _ _
  have hsubst := tBody_subst u1 dOld u2 vOld u3 u4 bid np nm hcpvU hd1 hd2 hcpvT hmvU hv1 hv2 hmvT
  have hslice1 : pySliceTo
      (A ++ (blkRaw B ++ (C ++ (blkRaw (tBody u1 dOld u2 vOld u3 bid u4) ++ D))))
      ((↑(A.length + B.length + C.length + 35) : Int) + 1 + 0)
      = A ++ (blkRaw B ++ (C ++ opener)) := by
    rw [show ((↑(A.length + B.length + C.length + 35) : Int) + 1 + 0)
        = ((A.length + B.length + C.length + 35 + 1 : Nat) : Int) from by push_cast; ring]
    rw [pySliceTo_nat]
    rw [show A ++ (blkRaw B ++ (C ++ (blkRaw (tBody u1 dOld u2 vOld u3 bid u4) ++ D)))
        = (A ++ (blkRaw B ++ (C ++ opener))) ++
            (tBody u1 dOld u2 vOld u3 bid u4 ++ ('\x7d' :: (';' :: D))) from by
      simp [blkRaw, blkClose, List.append_assoc]]
    exact List.take_left' (by
      simp [List.length_append, opener_length, blkRaw, blkClose]
      omega)
  have hslice2 : pySliceFrom
      (A ++ (blkRaw B ++ (C ++ (blkRaw (tBody u1 dOld u2 vOld u3 bid u4) ++ D))))
      ((↑(A.length + B.length + C.length + 35 + 1 + (tBody u1 dOld u2 vOld u3 bid u4).length) : Int) + 0)
      = '\x7d' :: (';' :: D) := by
    rw [show ((↑(A.length + B.length + C.length + 35 + 1 + (tBody u1 dOld u2 vOld u3 bid u4).length) : Int) + 0)
        = ((A.length + B.length + C.length + 35 + 1 + (tBody u1 dOld u2 vOld u3 bid u4).length : Nat) : Int) from by
      push_cast
      ring]
    rw [pySliceFrom_nat]
    rw [show A ++ (blkRaw B ++ (C ++ (blkRaw (tBody u1 dOld u2 vOld u3 bid u4) ++ D)))
        = ((A ++ (blkRaw B ++ (C ++ opener))) ++ tBody u1 dOld u2 vOld u3 bid u4) ++
            ('\x7d' :: (';' :: D)) from by
      simp [blkRaw, blkClose, List.append_assoc]]
    exact List.drop_left' (by
      simp [List.length_append, opener_length, blkRaw, blkClose]
      omega)
  simp only [upvLoop, hfmb1, hfmb2, hblk1, hblk2, hBnobid, hcs2, hsubst, hslice1,
    hslice2, Bool.false_eq_true, if_false, if_true]
  simp [blkRaw, blkClose, List.append_assoc]

lemma gcv_structured (A B C u1 d u2 v u3 u4 D bid : Str)
    (hA : noBlockIn A (blkRaw B ++ (C ++ (blkRaw (tBody u1 d u2 v u3 bid u4) ++ D))))
    (hC : noBlockIn C (blkRaw (tBody u1 d u2 v u3 bid u4) ++ D))
    (hD : ∀ i, i < D.length → tryBlockAt (List.drop i D) = none)
    (hBne : B ≠ []) (hBnb : B.all (fun c => c != '\x7d') = true)
    (hTnb : (tBody u1 d u2 v u3 bid u4).all (fun c => c != '\x7d') = true)
    (hBnobid : containsSub (bidAssign bid) B = false)
    (hcpvU : noAttrIn cpvLit isDigitC ';' u1
      (cpvLit ++ (d ++ ';' :: tailCpv u2 v u3 bid u4)))
    (hd1 : d ≠ []) (hd2 : d.all isDigitC = true)
    (hmvU : noAttrIn mvLit isDigitOrDot ';' (u1 ++ (cpvLit ++ (d ++ ';' :: u2)))
      (mvLit ++ (v ++ ';' :: tailBid u3 bid u4)))
    (hv1 : v ≠ []) (hv2 : v.all isDigitOrDot = true) :
    get_current_versions
        (A ++ (blkRaw B ++ (C ++ (blkRaw (tBody u1 d u2 v u3 bid u4) ++ D)))) bid
      = .ok (digitsVal d, v) := by
  have hTne : tBody u1 d u2 v u3 bid u4 ≠ [] := by
    simp [tBody, cpvLit]
  unfold get_current_versions
  rw [scanBlocks_structured A B C (tBody u1 d u2 v u3 bid u4) D hA hC hD hBne hBnb
    hTne hTnb]
  have hcs2 : containsSub (bidAssign bid) (tBody u1 d u2 v u3 bid u4) = true := by
    rw [show tBody u1 d u2 v u3 bid u4
        = (u1 ++ (cpvLit ++ (d ++ ';' :: (u2 ++ (mvLit ++ (v ++ ';' :: u3)))))) ++
            (bidAssign bid ++ u4) from by
      simp [tBody, tailCpv, tailBid, List.append_assoc]]
    exact containsSub_mid _ _ _
  have hsc : reSearchCap cpvLit isDigitC ';' (tBody u1 d u2 v u3 bid u4) = some d := by
    rw [show tBody u1 d u2 v u3 bid u4
        = u1 ++ (cpvLit ++ (d ++ ';' :: tailCpv u2 v u3 bid u4)) from rfl]
    exact reSearchCap_structured cpvLit isDigitC ';' u1 d _ hcpvU hd1 hd2 (by decide)
  have hsm : reSearchCap mvLit isDigitOrDot ';' (tBody u1 d u2 v u3 bid u4) = some v := by
    rw [show tBody u1 d u2 v u3 bid u4
        = (u1 ++ (cpvLit ++ (d ++ ';' :: u2))) ++
            (mvLit ++ (v ++ ';' :: tailBid u3 bid u4)) from by
      simp [tBody, tailCpv, List.append_assoc]]
    exact reSearchCap_structured mvLit isDigitOrDot ';' _ v _ hmvU hv1 hv2 (by decide)
  simp only [gcvLoop, hBnobid, hcs2, hsc, hsm, Bool.false_eq_true, if_false, if_true,
    Option.map_some, Option.isSome_some, Bool.and_self]
  rfl

lemma gcv_structured_no_match (A B C T D bid : Str)
    (hA : noBlockIn A (blkRaw B ++ (C ++ (blkRaw T ++ D))))
    (hC : noBlockIn C (blkRaw T ++ D))
    (hD : ∀ i, i < D.length → tryBlockAt (List.drop i D) = none)
    (hBne : B ≠ []) (hBnb : B.all (fun c => c != '\x7d') = true)
    (hTne : T ≠ []) (hTnb : T.all (fun c => c != '\x7d') = true)
    (hB2 : containsSub (bidAssign bid) B = false)
    (hT2 : containsSub (bidAssign bid) T = false) :
    get_current_versions (A ++ (blkRaw B ++ (C ++ (blkRaw T ++ D)))) bid
      = .error (.releaseError
          (("Could not find version numbers for bundle identifier ").toList ++ bid)) := by
  unfold get_current_versions
  rw [scanBlocks_structured A B C T D hA hC hD hBne hBnb hTne hTnb]
  simp [gcvLoop, hB2, hT2]

lemma tBodyNew_eq_tBody (u1 u2 u3 u4 bid : Str) (np : Nat) (nm : Str) :
    tBodyNew u1 u2 u3 u4 bid np nm = tBody u1 (natToStr np) u2 nm u3 bid u4 := by
  simp [tBodyNew, tBody, tailCpv, tailBid, cpvRepl, mvRepl, List.append_assoc]

lemma tBodyNew_no_close (u1 dOld u2 vOld u3 u4 bid : Str) (np : Nat) (nm : Str)
    (hTflat : (tBody u1 dOld u2 vOld u3 bid u4).all notBrace = true)
    (hnm2 : nm.all isDigitOrDot = true) :
    (tBodyNew u1 u2 u3 u4 bid np nm).all (fun c => c != '\x7d') = true := by
  have h1 : (natToStr np).all (fun c => c != '\x7d') = true :=
    all_weaken (fun c hc => notBrace_ne_close (digit_notBrace hc)) (natToStr_all_digit np)
  have h2 : nm.all (fun c => c != '\x7d') = true :=
    all_weaken (fun c hc => notBrace_ne_close (digitOrDot_notBrace hc)) hnm2
  have h3 := all_weaken (fun c hc => notBrace_ne_close hc) hTflat
  simp only [tBody, tailCpv, tailBid, List.all_append, List.all_cons, Bool.and_eq_true,
    and_assoc] at h3
  simp only [tBodyNew, cpvRepl, mvRepl, tailBid, List.all_append, List.all_cons,
    Bool.and_eq_true, and_assoc]
  simp_all

/-- C2 amended: the write-then-read roundtrip and non-interference hold
provided every buildSettings block of the descriptor is flat (no nested
braces) — the original claim fails when the matching block nests braces,
because `get_current_versions`'s regex `\{([^}]+)\};` cannot see past the
first closing brace.  For a descriptor `A ++ blk(B) ++ C ++ blk(T) ++ D`
whose only block containing the bundle-identifier assignment is the
structured flat block `T` (junk `u1`, build-number field `dOld`, junk `u2`,
marketing field `vOld`, junk `u3`, identifier, junk `u4`), with no other
occurrence of the opener/block/field patterns in the junk (all such
side conditions are the decidable hypotheses below) and a valid new pair
`(np, nm)`: `update_project_versions` rewrites exactly the two fields of `T`
— `A`, the other block `B`, `C` and `D` are byte-identical in the output —
and `get_current_versions` on the written text returns exactly `(np, nm)`. -/
theorem c2_amended_write_read_roundtrip
    (A B C u1 dOld u2 vOld u3 u4 D bid : Str) (np : Nat) (nm : Str)
    (hA : noOpenerIn A (blkRaw B ++ (C ++ (blkRaw (tBody u1 dOld u2 vOld u3 bid u4) ++ D))))
    (hB : noOpenerIn (B ++ blkClose) (C ++ (blkRaw (tBody u1 dOld u2 vOld u3 bid u4) ++ D)))
    (hC : noOpenerIn C (blkRaw (tBody u1 dOld u2 vOld u3 bid u4) ++ D))
    (hT : noOpenerIn (tBody u1 dOld u2 vOld u3 bid u4 ++ blkClose) D)
    (hD : ∀ i, i < D.length → tryOpenerAt (List.drop i D) = none)
    (hBne : B ≠ [])
    (hBflat : B.all notBrace = true)
    (hTflat : (tBody u1 dOld u2 vOld u3 bid u4).all notBrace = true)
    (hBnobid : containsSub (bidAssign bid) B = false)
    (hcpvU : noAttrIn cpvLit isDigitC ';' u1
      (cpvLit ++ (dOld ++ ';' :: tailCpv u2 vOld u3 bid u4)))
    (hd1 : dOld ≠ []) (hd2 : dOld.all isDigitC = true)
    (hcpvT : ∀ i, i < (tailCpv u2 vOld u3 bid u4).length →
      tryAttr cpvLit isDigitC ';' (List.drop i (tailCpv u2 vOld u3 bid u4)) = none)
    (hmvU : noAttrIn mvLit isDigitOrDot ';' (u1 ++ (cpvRepl np ++ u2))
      (mvLit ++ (vOld ++ ';' :: tailBid u3 bid u4)))
    (hv1 : vOld ≠ []) (hv2 : vOld.all isDigitOrDot = true)
    (hmvT : ∀ i, i < (tailBid u3 bid u4).length →
      tryAttr mvLit isDigitOrDot ';' (List.drop i (tailBid u3 bid u4)) = none)
    (hnm1 : nm ≠ []) (hnm2 : nm.all isDigitOrDot = true)
    (hA2 : noBlockIn A (blkRaw B ++ (C ++ (blkRaw (tBodyNew u1 u2 u3 u4 bid np nm) ++ D))))
    (hC2 : noBlockIn C (blkRaw (tBodyNew u1 u2 u3 u4 bid np nm) ++ D))
    (hD2 : ∀ i, i < D.length → tryBlockAt (List.drop i D) = none)
    (hcpvU2 : noAttrIn cpvLit isDigitC ';' u1
      (cpvLit ++ (natToStr np ++ ';' :: tailCpv u2 nm u3 bid u4)))
    (hmvU2 : noAttrIn mvLit isDigitOrDot ';' (u1 ++ (cpvLit ++ (natToStr np ++ ';' :: u2)))
      (mvLit ++ (nm ++ ';' :: tailBid u3 bid u4))) :
    update_project_versions
        (A ++ (blkRaw B ++ (C ++ (blkRaw (tBody u1 dOld u2 vOld u3 bid u4) ++ D))))
        bid np nm
      = A ++ (blkRaw B ++ (C ++ (blkRaw (tBodyNew u1 u2 u3 u4 bid np nm) ++ D))) ∧
    get_current_versions
        (A ++ (blkRaw B ++ (C ++ (blkRaw (tBodyNew u1 u2 u3 u4 bid np nm) ++ D)))) bid
      = .ok (np, nm) := by
  constructor
  · exact upv_structured A B C u1 dOld u2 vOld u3 u4 D bid np nm hA hB hC hT hD
      hBflat hTflat hBnobid hcpvU hd1 hd2 hcpvT hmvU hv1 hv2 hmvT
  · have hTNnb := tBodyNew_no_close u1 dOld u2 vOld u3 u4 bid np nm hTflat hnm2
    have hBnb : B.all (fun c => c != '\x7d') = true :=
      all_weaken (fun c hc => notBrace_ne_close hc) hBflat
    have heq := tBodyNew_eq_tBody u1 u2 u3 u4 bid np nm
    rw [heq] at hA2 hC2 hTNnb ⊢
    rw [gcv_structured A B C u1 (natToStr np) u2 nm u3 u4 D bid hA2 hC2 hD2 hBne hBnb
      hTNnb hBnobid hcpvU2 (natToStr_ne_nil np) (natToStr_all_digit np) hmvU2 hnm1 hnm2]
    rw [digitsVal_natToStr]

/-- C2 witness: a concrete two-block descriptor (other block for `com.o`,
target block for `com.x` with build 41 and version 2.3.0), updated to
`(51, "2.4.0")`: the write rewrites only the two fields of the target block
and the read returns exactly the written pair. -/
theorem c2_amended_write_read_roundtrip_witness :
    update_project_versions
        ((("p;").toList) ++ (blkRaw (("PRODUCT_BUNDLE_IDENTIFIER = com.o;").toList) ++
          (((";").toList) ++ (blkRaw (tBody ((" ").toList) (("41").toList) ((" ").toList)
            (("2.3.0").toList) ((" ").toList) (("com.x").toList) ((" ").toList)) ++
            ((";").toList)))))
        (("com.x").toList) 51 (("2.4.0").toList)
      = (("p;").toList) ++ (blkRaw (("PRODUCT_BUNDLE_IDENTIFIER = com.o;").toList) ++
          (((";").toList) ++ (blkRaw (tBodyNew ((" ").toList) ((" ").toList) ((" ").toList)
            ((" ").toList) (("com.x").toList) 51 (("2.4.0").toList)) ++ ((";").toList)))) ∧
    get_current_versions
        ((("p;").toList) ++ (blkRaw (("PRODUCT_BUNDLE_IDENTIFIER = com.o;").toList) ++
          (((";").toList) ++ (blkRaw (tBodyNew ((" ").toList) ((" ").toList) ((" ").toList)
            ((" ").toList) (("com.x").toList) 51 (("2.4.0").toList)) ++ ((";").toList)))))
        (("com.x").toList)
      = .ok (51, ("2.4.0").toList) :=
  c2_amended_write_read_roundtrip (("p;").toList)
    (("PRODUCT_BUNDLE_IDENTIFIER = com.o;").toList) ((";").toList) ((" ").toList)
    (("41").toList) ((" ").toList) (("2.3.0").toList) ((" ").toList) ((" ").toList)
    ((";").toList) (("com.x").toList) 51 (("2.4.0").toList)
    (by decide) (by decide) (by decide) (by decide) (by decide) (by decide) (by decide)
    (by decide) (by decide) (by decide) (by decide) (by decide) (by decide) (by decide)
    (by decide) (by decide) (by decide) (by decide) (by decide) (by decide) (by decide)
    (by decide) (by decide) (by decide)

/-- C6 amended: `get_current_versions` scans the brace-flat blocks captured
by the regex `buildSettings\s*=\s*\{([^}]+)\};` (a block's capture ends at
the first closing brace, so nested braces are not handled) and, when the
first block containing the exact bundle-identifier assignment yields both
fields, returns that block's build number and marketing version; when the
two fields are never both found — in particular when no block matches the
identifier — it raises the not-found `ReleaseError`.  (When fields are
spread over several matching blocks they may be assembled from different
blocks — see the counterexample.) -/
theorem c6_amended_first_matching_block :
    (∀ (A B C u1 d u2 v u3 u4 D bid : Str),
      noBlockIn A (blkRaw B ++ (C ++ (blkRaw (tBody u1 d u2 v u3 bid u4) ++ D))) →
      noBlockIn C (blkRaw (tBody u1 d u2 v u3 bid u4) ++ D) →
      (∀ i, i < D.length → tryBlockAt (List.drop i D) = none) →
      B ≠ [] → B.all (fun c => c != '\x7d') = true →
      (tBody u1 d u2 v u3 bid u4).all (fun c => c != '\x7d') = true →
      containsSub (bidAssign bid) B = false →
      noAttrIn cpvLit isDigitC ';' u1 (cpvLit ++ (d ++ ';' :: tailCpv u2 v u3 bid u4)) →
      d ≠ [] → d.all isDigitC = true →
      noAttrIn mvLit isDigitOrDot ';' (u1 ++ (cpvLit ++ (d ++ ';' :: u2)))
        (mvLit ++ (v ++ ';' :: tailBid u3 bid u4)) →
      v ≠ [] → v.all isDigitOrDot = true →
      get_current_versions
          (A ++ (blkRaw B ++ (C ++ (blkRaw (tBody u1 d u2 v u3 bid u4) ++ D)))) bid
        = .ok (digitsVal d, v)) ∧
    (∀ (A B C T D bid : Str),
      noBlockIn A (blkRaw B ++ (C ++ (blkRaw T ++ D))) →
      noBlockIn C (blkRaw T ++ D) →
      (∀ i, i < D.length → tryBlockAt (List.drop i D) = none) →
      B ≠ [] → B.all (fun c => c != '\x7d') = true →
      T ≠ [] → T.all (fun c => c != '\x7d') = true →
      containsSub (bidAssign bid) B = false →
      containsSub (bidAssign bid) T = false →
      get_current_versions (A ++ (blkRaw B ++ (C ++ (blkRaw T ++ D)))) bid
        = .error (.releaseError
            (("Could not find version numbers for bundle identifier ").toList ++ bid))) :=
  ⟨fun A B C u1 d u2 v u3 u4 D bid hA hC hD hBne hBnb hTnb hBnobid hcpvU hd1 hd2
      hmvU hv1 hv2 =>
    gcv_structured A B C u1 d u2 v u3 u4 D bid hA hC hD hBne hBnb hTnb hBnobid
      hcpvU hd1 hd2 hmvU hv1 hv2,
   fun A B C T D bid hA hC hD hBne hBnb hTne hTnb hB2 hT2 =>
    gcv_structured_no_match A B C T D bid hA hC hD hBne hBnb hTne hTnb hB2 hT2⟩

/-- C6 amended witness: on a concrete two-block descriptor the first block
matching `com.y` yields `(7, "1.2.3")`; with the unmatched identifier
`com.z` the not-found error is raised. -/
theorem c6_amended_first_matching_block_witness :
    get_current_versions
        ((("h;").toList) ++ (blkRaw (("OTHER = 1;").toList) ++ ((("x").toList) ++
          (blkRaw (tBody (("\t").toList) (("7").toList) (("\t").toList)
            (("1.2.3").toList) (("\t").toList) (("com.y").toList) (("\t").toList)) ++
            (("y").toList)))))
        (("com.y").toList)
      = .ok (7, ("1.2.3").toList) ∧
    get_current_versions
        ((("h;").toList) ++ (blkRaw (("OTHER = 1;").toList) ++ ((("x").toList) ++
          (blkRaw (("FIELDS = 2;").toList) ++ (("y").toList)))))
        (("com.z").toList)
      = .error (.releaseError
          (("Could not find version numbers for bundle identifier ").toList ++
            (("com.z").toList))) :=
  ⟨by
    have h := c6_amended_first_matching_block.1 (("h;").toList) (("OTHER = 1;").toList)
      (("x").toList) (("\t").toList) (("7").toList) (("\t").toList) (("1.2.3").toList)
      (("\t").toList) (("\t").toList) (("y").toList) (("com.y").toList)
      (by decide) (by decide) (by decide) (by decide) (by decide) (by decide)
      (by decide) (by decide) (by decide) (by decide) (by decide) (by decide) (by decide)
    simpa using h,
   c6_amended_first_matching_block.2 (("h;").toList) (("OTHER = 1;").toList)
    (("x").toList) (("FIELDS = 2;").toList) (("y").toList) (("com.z").toList)
    (by decide) (by decide) (by decide) (by decide) (by decide) (by decide)
    (by decide) (by decide) (by decide)⟩

lemma findUnrel_at (X : Str) :
    findUnrel ((("## Unreleased\n").toList) ++ X) = some (capLoop X) := by
  rw [show (("## Unreleased\n").toList) ++ X
      = '#' :: ((("# Unreleased\n").toList) ++ X) from rfl]
  simp only [findUnrel]
  rw [if_pos (by
    rw [show ('#' :: ((("# Unreleased\n").toList) ++ X))
        = (("## Unreleased\n").toList) ++ X from rfl]
    exact isPrefixOf_append_self _ _)]
  congr 1

lemma replaceFirst_unrel (repl Y : Str) :
    replaceFirst (("## Unreleased").toList) repl ((("## Unreleased").toList) ++ Y)
      = repl ++ Y := by
  rw [show (("## Unreleased").toList) ++ Y
      = '#' :: ((("# Unreleased").toList) ++ Y) from rfl]
  simp only [replaceFirst]
  rw [if_pos (by
    rw [show ('#' :: ((("# Unreleased").toList) ++ Y))
        = (("## Unreleased").toList) ++ Y from rfl]
    exact isPrefixOf_append_self _ _)]
  congr 1

lemma stopHere_at_header (olds : Str) :
    stopHere ((("\n## ").toList) ++ olds) = true := by
  simp [stopHere, isPrefixOf_append_self]

lemma no_straddle (c : Char) (t olds : Str)
    (h : containsSub (("\n## ").toList) (c :: t) = false) :
    (("\n## ").toList).isPrefixOf (c :: (t ++ ((("\n## ").toList) ++ olds))) = false := by
  by_cases hc : c = '\n'
  · subst hc
    rcases t with _ | ⟨a, _ | ⟨b, _ | ⟨d, t'⟩⟩⟩
    · simp [List.isPrefixOf]
    · simp [List.isPrefixOf]
    · simp [List.isPrefixOf]
    · show (("\n## ").toList).isPrefixOf
        ('\n' :: (a :: b :: d :: (t' ++ ((("\n## ").toList) ++ olds)))) = false
      by_cases ha : a = '#'
      · by_cases hb : b = '#'
        · by_cases hd : d = ' '
          · subst ha
            subst hb
            subst hd
            exfalso
            have hcon : containsSub (("\n## ").toList)
                ('\n' :: '#' :: '#' :: ' ' :: t') = true := by
              simp [containsSub, List.isPrefixOf]
            rw [hcon] at h
            exact Bool.noConfusion h
          · have hd2 : (' ' == d) = false := by
              rw [beq_eq_false_iff_ne]
              exact fun e => hd e.symm
            simp [List.isPrefixOf, hd2]
        · have hb2 : ('#' == b) = false := by
            rw [beq_eq_false_iff_ne]
            exact fun e => hb e.symm
          simp [List.isPrefixOf, hb2]
      · have ha2 : ('#' == a) = false := by
          rw [beq_eq_false_iff_ne]
          exact fun e => ha e.symm
        simp [List.isPrefixOf, ha2]
  · have hc2 : ('\n' == c) = false := by
      rw [beq_eq_false_iff_ne]
      exact fun e => hc e.symm
    simp [List.isPrefixOf, hc2]

lemma capLoop_cons (c : Char) (t : Str) :
    capLoop (c :: t) = if stopHere (c :: t) then [] else c :: capLoop t := rfl

lemma containsSub_tail {pat : Str} {c : Char} {t : Str}
    (h : containsSub pat (c :: t) = false) : containsSub pat t = false := by
  simp only [containsSub, Bool.or_eq_false_iff] at h
  exact h.2

lemma capLoop_before_header (items olds : Str)
    (h : containsSub (("\n## ").toList) items = false) :
    capLoop (items ++ ((("\n## ").toList) ++ olds)) = items := by
  induction items with
  | nil =>
    rw [List.nil_append]
    rw [show (("\n## ").toList) ++ olds = '\n' :: ((("## ").toList) ++ olds) from rfl]
    rw [capLoop_cons]
    rw [show stopHere ('\n' :: ((("## ").toList) ++ olds)) = true from
      stopHere_at_header olds]
    rfl
  | cons c t ih =>
    rw [List.cons_append, capLoop_cons]
    have hst : stopHere (c :: (t ++ ((("\n## ").toList) ++ olds))) = false := by
      simp only [stopHere, Bool.or_eq_false_iff]
      constructor
      · exact no_straddle c t olds h
      · rw [beq_eq_false_iff_ne]
        intro he
        have : t ++ ((("\n## ").toList) ++ olds) = [] := by
          injection he
        simp at this
    rw [hst]
    simp only [if_false, Bool.false_eq_true]
    rw [ih (containsSub_tail h)]

lemma pySplit_ne_nil (sep : Char) (s : Str) : pySplit sep s ≠ [] := by
  cases s with
  | nil => simp [pySplit]
  | cons c t =>
    simp only [pySplit]
    by_cases h : c = sep <;> simp [h]

lemma joinWith_cons_ne (sep : Char) (a : Str) (ls : List Str) (h : ls ≠ []) :
    joinWith sep (a :: ls) = a ++ sep :: joinWith sep ls := by
  cases ls with
  | nil => exact absurd rfl h
  | cons y t => rfl

lemma joinWith_pySplit (sep : Char) (s : Str) :
    joinWith sep (pySplit sep s) = s := by
  induction s with
  | nil => rfl
  | cons c t ih =>
    simp only [pySplit]
    by_cases h : c = sep
    · rw [if_pos h]
      rcases hr : pySplit sep t with _ | ⟨g, gs⟩
      · exact absurd hr (pySplit_ne_nil sep t)
      · rw [hr] at ih
        show joinWith sep ([] :: g :: gs) = c :: t
        simp only [joinWith]
        rw [List.nil_append, ih, h]
    · rw [if_neg h]
      rcases hr : pySplit sep t with _ | ⟨g, gs⟩
      · exact absurd hr (pySplit_ne_nil sep t)
      · rw [hr] at ih
        simp only [List.headD, List.tail]
        cases gs with
        | nil =>
          show joinWith sep [c :: g] = c :: t
          simp only [joinWith]
          simp only [joinWith] at ih
          rw [ih]
        | cons g2 gs2 =>
          show joinWith sep ((c :: g) :: g2 :: gs2) = c :: t
          simp only [joinWith]
          simp only [joinWith] at ih
          rw [List.cons_append, ih]

lemma digit_ne_nl {c : Char} (h : isDigitC c = true) : c ≠ '\n' := by
  intro e
  rw [e] at h
  exact Bool.noConfusion h

lemma newHeader_no_nl (mv : Str) (n : Nat)
    (hmv : mv.all (fun c => c != '\n') = true) :
    ∀ c ∈ (("## Version ").toList ++ mv ++ ((" (").toList) ++ natToStr n ++ [')']),
      c ≠ '\n' := by
  intro c hc
  simp only [List.mem_append, List.mem_singleton] at hc
  rcases hc with ⟨⟨⟨h1 | h2⟩ | h3⟩ | h4⟩ | h5
  · intro e
    subst e
    revert h1
    decide
  · have := List.all_eq_true.mp hmv c h2
    simpa [bne_iff_ne] using this
  · intro e
    subst e
    revert h3
    decide
  · exact digit_ne_nl (all_digit_mem (natToStr_all_digit n) h4)
  · subst h5
    decide

lemma pyStrip_of_ends (c1 c2 : Char) (m : Str)
    (h1 : isPyWs c1 = false) (h2 : isPyWs c2 = false) :
    pyStrip (c1 :: (m ++ [c2])) = c1 :: (m ++ [c2]) := by
  unfold pyStrip
  rw [List.dropWhile_cons, h1]
  simp only [Bool.false_eq_true, if_false]
  rw [show (c1 :: (m ++ [c2])).reverse = c2 :: (m.reverse ++ [c1]) from by
    simp [List.reverse_cons, List.reverse_append]]
  rw [List.dropWhile_cons, h2]
  simp only [Bool.false_eq_true, if_false]
  simp [List.reverse_cons, List.reverse_append]

lemma pyStrip_header (mv : Str) (n : Nat) :
    pyStrip ((("## Version ").toList) ++ mv ++ ((" (").toList) ++ natToStr n ++ [')'])
      = (("## Version ").toList) ++ mv ++ ((" (").toList) ++ natToStr n ++ [')'] := by
  rw [show (("## Version ").toList) ++ mv ++ ((" (").toList) ++ natToStr n ++ [')']
      = '#' :: ((((("# Version ").toList ++ mv) ++ ((" (").toList)) ++ natToStr n) ++ [')'])
      from rfl]
  exact pyStrip_of_ends '#' ')' _ (by decide) (by decide)

lemma insertUnrel_head (h : Str) (ls : List Str) (hh : pyStrip h = h) :
    insertUnrel h (h :: ls) = (("## Unreleased").toList) :: [] :: h :: ls := by
  simp [insertUnrel, hh]

/-- C7: for every changelog whose text is a `## Unreleased` header followed
by items and then older versioned sections (`\n## ` never occurs inside the
items), `process_changelog` with version X.Y.Z and build N returns the items
with surrounding whitespace stripped, and rewrites the document to: an empty
`## Unreleased` section first, then the header `## Version X.Y.Z (N)`
followed by the original unreleased items, then the pre-existing sections
byte-identical and in order. -/
theorem c7_process_changelog_promotes (n : Nat) (mv items olds : Str)
    (hmv : mv.all (fun c => c != '\n') = true)
    (hitems : containsSub (("\n## ").toList) items = false) :
    process_changelog n mv
        ((("## Unreleased\n").toList) ++ (items ++ ((("\n## ").toList) ++ olds)))
      = .ok (pyStrip items,
          (("## Unreleased\n\n").toList) ++
            (((("## Version ").toList) ++ mv ++ ((" (").toList) ++ natToStr n ++ [')']) ++
              ('\n' :: (items ++ ((("\n## ").toList) ++ olds))))) := by
  unfold process_changelog
  rw [findUnrel_at, capLoop_before_header items olds hitems]
  simp only []
  rw [show (("## Unreleased\n").toList) ++ (items ++ ((("\n## ").toList) ++ olds))
      = (("## Unreleased").toList) ++ ('\n' :: (items ++ ((("\n## ").toList) ++ olds)))
      from rfl]
  rw [replaceFirst_unrel]
  rw [pySplit_append _ fun c hc => newHeader_no_nl mv n hmv c hc]
  rw [insertUnrel_head _ _ (pyStrip_header mv n)]
  simp only [joinWith]
  rw [joinWith_cons_ne _ _ _ (pySplit_ne_nil '\n' _), joinWith_pySplit]
  simp [List.append_assoc]

theorem c7_process_changelog_promotes_witness :
    ((("1.1.0").toList).all (fun c => c != '\n') = true) ∧
    (containsSub (("\n## ").toList) (("- a\n- b").toList) = false) ∧
    process_changelog 2 (("1.1.0").toList)
        ((("## Unreleased\n").toList) ++
          ((("- a\n- b").toList) ++ ((("\n## ").toList) ++ (("Version 1.0.0 (1)").toList))))
      = .ok (pyStrip (("- a\n- b").toList),
          (("## Unreleased\n\n").toList) ++
            (((("## Version ").toList) ++ (("1.1.0").toList) ++ ((" (").toList) ++
                natToStr 2 ++ [')']) ++
              ('\n' :: ((("- a\n- b").toList) ++
                ((("\n## ").toList) ++ (("Version 1.0.0 (1)").toList)))))) :=
  ⟨by decide, by decide,
    c7_process_changelog_promotes 2 (("1.1.0").toList) (("- a\n- b").toList)
      (("Version 1.0.0 (1)").toList) (by decide) (by decide)⟩
